import Mathlib

/-
  Verification development for the SalonCloud repository (src/modelo.py, src/main.py).

  The scheduling and ledger core of `modelo.py` is shallowly embedded below:
  the SQLite tables become lists inside a `DB` structure, each Python method
  becomes a Lean function `DB → args → DB × Bool × String` (mirroring the
  `(ok, message)` convention of the source, with the state threaded
  explicitly), and Python exceptions caught by `try/except` blocks become an
  `Except String` computation whose error branch returns the original state
  (the sqlite transaction is rolled back by the source on exception).

  Conventions of the embedding:
  * All money amounts, stock counts and ids are `Nat` (the UI feeds
    non-negative numbers; REAL columns are modelled at integer granularity).
  * Times of day are kept as the strings stored in the database and parsed
    with `parseHM`, which mirrors CPython's `strptime(s, "%H:%M")` regex
    `(2[0-3]|[01]\d|\d):([0-5]\d|\d)`.
  * UI dates are strings parsed with `parseDMY`, mirroring
    `strptime(s, "%d-%m-%y")` including calendar validation and the
    68/69 century pivot of `%y`.
  * `datetime.now()` values enter as explicit `hoy`/`ahora` arguments.
  * SQL `LIKE '%t%'` is modelled as (case-sensitive) substring containment.
-/

def digitChar (n : Nat) : Char :=
  match n with
  | 0 => '0' | 1 => '1' | 2 => '2' | 3 => '3' | 4 => '4'
  | 5 => '5' | 6 => '6' | 7 => '7' | 8 => '8' | _ => '9'

def digitVal (c : Char) : Nat := c.toNat - 48

def isDigitCh (c : Char) : Bool := 48 ≤ c.toNat && c.toNat ≤ 57

/-- One numeric field of `strptime`: try two digits whose value is in
`[lo, hi]`, else one digit in `[lo1, 9]`, exactly as the alternations of the
CPython `_strptime` regexes resolve. Returns the value and the rest. -/
def takeNum (lo hi lo1 : Nat) : List Char → Option (Nat × List Char)
  | c1 :: c2 :: rest =>
    if isDigitCh c1 && isDigitCh c2 &&
        decide (lo ≤ 10 * digitVal c1 + digitVal c2) &&
        decide (10 * digitVal c1 + digitVal c2 ≤ hi) then
      some (10 * digitVal c1 + digitVal c2, rest)
    else if isDigitCh c1 && decide (lo1 ≤ digitVal c1) then
      some (digitVal c1, c2 :: rest)
    else
      none
  | [c1] =>
    if isDigitCh c1 && decide (lo1 ≤ digitVal c1) then some (digitVal c1, [])
    else none
  | [] => none

/-- `datetime.strptime(s, "%H:%M")`, as minutes after midnight.
`%H` is `2[0-3]|[01]\d|\d`, `%M` is `[0-5]\d|\d`, nothing may remain. -/
def parseHM (s : String) : Option Nat :=
  match takeNum 0 23 0 s.toList with
  | some (h, ':' :: rest) =>
    match takeNum 0 59 0 rest with
    | some (m, []) => some (60 * h + m)
    | _ => none
  | _ => none

/-- `strftime("%H:%M")` of a time of day given in minutes (`m < 1440`). -/
def fmtHM (m : Nat) : String :=
  ⟨[digitChar (m / 60 / 10), digitChar (m / 60 % 10), ':',
    digitChar (m % 60 / 10), digitChar (m % 60 % 10)]⟩

def isLeap (y : Nat) : Bool := (y % 4 == 0 && y % 100 != 0) || y % 400 == 0

def daysInMonth (y m : Nat) : Nat :=
  if m == 2 then (if isLeap y then 29 else 28)
  else if m == 4 || m == 6 || m == 9 || m == 11 then 30
  else 31

/-- `datetime.strptime(s, "%d-%m-%y")` giving `(day, month, full year)`.
`%d` is `3[01]|[12]\d|0[1-9]|[1-9]`, `%m` is `1[0-2]|0[1-9]|[1-9]`, `%y` is
exactly two digits with the 1969/2068 pivot; the datetime constructor then
rejects days beyond the month length. -/
def parseDMY (s : String) : Option (Nat × Nat × Nat) :=
  match takeNum 1 31 1 s.toList with
  | some (d, '-' :: rest1) =>
    match takeNum 1 12 1 rest1 with
    | some (m, '-' :: rest2) =>
      match rest2 with
      | [c1, c2] =>
        if isDigitCh c1 && isDigitCh c2 then
          let yy := 10 * digitVal c1 + digitVal c2
          let y := if yy ≤ 68 then 2000 + yy else 1900 + yy
          if d ≤ daysInMonth y m then some (d, m, y) else none
        else none
      | _ => none
    | _ => none
  | _ => none

def pad2 (n : Nat) : String := ⟨[digitChar (n / 10), digitChar (n % 10)]⟩

/-- `strftime("%Y-%m-%d")` for the years reachable through `%y`. -/
def isoStr (y m d : Nat) : String :=
  toString y ++ "-" ++ pad2 m ++ "-" ++ pad2 d

/-- `f_to_iso`: converts a `dd-mm-yy` UI date to ISO; on a parse failure the
source catches the exception and returns the input unchanged. -/
def f_to_iso (fecha_ui : String) : String :=
  match parseDMY fecha_ui with
  | some (d, m, y) => isoStr y m d
  | none => fecha_ui

/-- Day count from 0000-03-01 (Gregorian civil calendar), used to model
`timedelta` day arithmetic between parsed `%d-%m-%y` dates. -/
def toDayNum (y m d : Nat) : Nat :=
  let y1 := if m ≤ 2 then y - 1 else y
  let era := y1 / 400
  let yoe := y1 % 400
  let mp := if 2 < m then m - 3 else m + 9
  let doy := (153 * mp + 2) / 5 + (d - 1)
  let doe := yoe * 365 + yoe / 4 - yoe / 100 + doy
  era * 146097 + doe

/-- Inverse of `toDayNum` (civil-from-days). -/
def fromDayNum (z : Nat) : Nat × Nat × Nat :=
  let era := z / 146097
  let doe := z % 146097
  let yoe := (doe - doe / 1460 + doe / 36524 - doe / 146097) / 365
  let y := yoe + era * 400
  let doy := doe - (365 * yoe + yoe / 4 - yoe / 100)
  let mp := (5 * doy + 2) / 153
  let d := doy - (153 * mp + 2) / 5 + 1
  let m := if mp < 10 then mp + 3 else mp - 9
  (if m ≤ 2 then y + 1 else y, m, d)

def isoOfDayNum (z : Nat) : String :=
  match fromDayNum z with
  | (y, m, d) => isoStr y m d

def isPrefixL : List Char → List Char → Bool
  | [], _ => true
  | _ :: _, [] => false
  | a :: as, b :: bs => a == b && isPrefixL as bs

def containsL (n : List Char) : List Char → Bool
  | [] => isPrefixL n []
  | c :: rest => isPrefixL n (c :: rest) || containsL n rest

/-- SQL `col LIKE '%t%'` (ASCII case folding elided). -/
def likeContains (hay needle : String) : Bool := containsL needle.toList hay.toList

structure Tercero where
  id : Nat
  doc_id : String
  nombre_completo : String
  telefono : String
  es_cliente : Bool
  es_proveedor : Bool
  es_empleado : Bool
  comision : Nat
  fecha_registro : String
deriving DecidableEq, Repr

structure Servicio where
  id : Nat
  nombre : String
  duracion_min : Nat
  precio : Nat
deriving DecidableEq, Repr

structure Producto where
  id : Nat
  nombre : String
  precio : Nat
  stock : Nat
deriving DecidableEq, Repr

structure Cita where
  id : Nat
  cliente_id : Nat
  profesional_id : Nat
  servicio_id : Nat
  fecha : String
  hora_inicio : String
  hora_fin : String
  estado : String
  precio_final : Nat
  nomina_pagada : Bool
deriving DecidableEq, Repr

structure Pago where
  id : Nat
  cita_id : Nat
  metodo : String
  monto : Nat
  fecha : String
  hora : String
  descripcion_extra : String
deriving DecidableEq, Repr

structure Gasto where
  fecha : String
  tipo : String
  categoria : String
  descripcion : String
  metodo : String
  valor : Nat
deriving DecidableEq, Repr

structure Prestamo where
  id : Nat
  profesional_id : Nat
  monto : Nat
  fecha : String
  estado : String
  descripcion : String
deriving DecidableEq, Repr

structure AbonoPrestamo where
  id : Nat
  prestamo_id : Nat
  valor : Nat
  fecha : String
  descripcion : String
  metodo : String
deriving DecidableEq, Repr

structure Compra where
  id : Nat
  proveedor_id : Nat
  fecha : String
  total : Nat
  metodo_pago : String
  estado : String
  observacion : String
deriving DecidableEq, Repr

structure DetalleCompra where
  compra_id : Nat
  producto_id : Nat
  cantidad : Nat
  costo_unitario : Nat
deriving DecidableEq, Repr

structure AbonoProveedor where
  compra_id : Nat
  monto : Nat
  fecha : String
  metodo : String
deriving DecidableEq, Repr

structure VentaProducto where
  cita_id : Nat
  producto_id : Nat
  cantidad : Nat
  precio_unitario : Nat
  fecha : String
deriving DecidableEq, Repr

structure Bloqueo where
  id : Nat
  profesional_id : Nat
  fecha : String
  hora_inicio : String
  hora_fin : String
  motivo : String
deriving DecidableEq, Repr

/-- The persistent state: one list per SQLite table, plus the AUTOINCREMENT
counters for the tables whose fresh row ids matter to the modelled methods. -/
structure DB where
  terceros : List Tercero
  servicios : List Servicio
  productos : List Producto
  citas : List Cita
  bloqueos : List Bloqueo
  pagos : List Pago
  gastos : List Gasto
  prestamos : List Prestamo
  abonos_prestamos : List AbonoPrestamo
  compras : List Compra
  detalle_compras : List DetalleCompra
  abonos_proveedores : List AbonoProveedor
  ventas_productos : List VentaProducto
  next_tercero_id : Nat
  next_cita_id : Nat
  next_pago_id : Nat
  next_prestamo_id : Nat
  next_abono_id : Nat
  next_compra_id : Nat
  next_bloqueo_id : Nat
deriving DecidableEq, Repr

/-- `SELECT id FROM terceros WHERE nombre_completo=? AND es_empleado=1`,
`fetchone()[0]` (first matching row in rowid order). -/
def lookupEmpleadoId (db : DB) (nombre : String) : Option Nat :=
  (db.terceros.find? (fun t => t.nombre_completo == nombre && t.es_empleado)).map (·.id)

def parseHME (s : String) : Except String Nat :=
  match parseHM s with
  | some n => Except.ok n
  | none => Except.error ("time data " ++ s ++ " does not match format %H:%M")

/-- The loop `for ci, cf in citas` of `validar_choque`: Python evaluates
`strptime(cf)` first and `strptime(ci)` only when `ini < cf` holds
(short-circuit `and`); a parse failure propagates as an exception. Returns
the first occupancy message, if any. -/
def checkCitas (ini fin : Nat) : List Cita → Except String (Option String)
  | [] => Except.ok none
  | c :: rest => do
    let cf ← parseHME c.hora_fin
    if ini < cf then do
      let ci ← parseHME c.hora_inicio
      if fin > ci then
        Except.ok (some ("Ocupado (" ++ c.hora_inicio ++ "-" ++ c.hora_fin ++ ")"))
      else checkCitas ini fin rest
    else checkCitas ini fin rest

/-- The loop `for bi, bf, mot in bloqueos` of `validar_choque`. -/
def checkBloqueos (ini fin : Nat) : List Bloqueo → Except String (Option String)
  | [] => Except.ok none
  | b :: rest => do
    let bf ← parseHME b.hora_fin
    if ini < bf then do
      let bi ← parseHME b.hora_inicio
      if fin > bi then
        Except.ok (some ("BLOQUEADO: " ++ b.motivo))
      else checkBloqueos ini fin rest
    else checkBloqueos ini fin rest

/-- Non-cancelled appointments of `(fecha, profesional)`:
`SELECT hora_inicio, hora_fin FROM citas WHERE fecha=? AND profesional_id=?
AND estado!='Cancelado'`. -/
def citasRelevantes (db : DB) (fecha_iso : String) (pid : Nat) : List Cita :=
  db.citas.filter (fun c =>
    c.fecha == fecha_iso && c.profesional_id == pid && c.estado != "Cancelado")

/-- `SELECT ... FROM bloqueos WHERE fecha=? AND (profesional_id=? OR
profesional_id=0)`. -/
def bloqueosRelevantes (db : DB) (fecha_iso : String) (pid : Nat) : List Bloqueo :=
  db.bloqueos.filter (fun b =>
    b.fecha == fecha_iso && (b.profesional_id == pid || b.profesional_id == 0))

/-- Body of the `try` block of `validar_choque`. `fin = ini + duracion` is a
raw minute count (the Python datetime carries a day component, so it is not
reduced mod 1440 in the comparisons), while the returned end-of-slot string
`h_fin` is the formatted time of day. -/
def validarChoqueE (db : DB) (fecha_ui hora_ini : String) (duracion : Nat)
    (pro_nombre : String) : Except String (Bool × String) := do
  let fecha_iso := f_to_iso fecha_ui
  let ini ← parseHME hora_ini
  let fin := ini + duracion
  let h_fin := fmtHM (fin % 1440)
  let pid ← match lookupEmpleadoId db pro_nombre with
    | some p => Except.ok p
    | none => Except.error "NoneType object is not subscriptable"
  match ← checkCitas ini fin (citasRelevantes db fecha_iso pid) with
  | some msg => Except.ok (true, msg)
  | none =>
    match ← checkBloqueos ini fin (bloqueosRelevantes db fecha_iso pid) with
    | some msg => Except.ok (true, msg)
    | none => Except.ok (false, h_fin)

/-- `validar_choque`: the catch-all `except` converts any exception into
`(True, str(e))`, i.e. a reported conflict. -/
def validar_choque (db : DB) (fecha_ui hora_ini : String) (duracion : Nat)
    (pro_nombre : String) : Bool × String :=
  match validarChoqueE db fecha_ui hora_ini duracion pro_nombre with
  | Except.ok r => r
  | Except.error e => (true, e)

structure CarritoItem where
  profesional : String
  servicio : String
  fecha : String
  inicio : String
  fin : String
  precio : Nat
deriving DecidableEq, Repr

/-- `buscar_cliente`: first `terceros` row with `es_cliente=1` whose name,
phone or document contains the search text. -/
def buscar_cliente (db : DB) (texto : String) : Option Tercero :=
  db.terceros.find? (fun t =>
    t.es_cliente && (likeContains t.nombre_completo texto
      || likeContains t.telefono texto || likeContains t.doc_id texto))

/-- The insertion loop of `guardar_paquete_citas` (second `with` block):
resolves professional and service by name, converts the date, inserts one
`Pendiente` appointment per item; any lookup failure raises and rolls the
whole loop back. -/
def insertCitas (cli_id : Nat) : DB → List CarritoItem → Except String DB
  | db, [] => Except.ok db
  | db, i :: rest => do
    let pid ← match lookupEmpleadoId db i.profesional with
      | some p => Except.ok p
      | none => Except.error "NoneType object is not subscriptable"
    let sid ← match (db.servicios.find? (fun s => s.nombre == i.servicio)).map (·.id) with
      | some s => Except.ok s
      | none => Except.error "NoneType object is not subscriptable"
    let f_iso := f_to_iso i.fecha
    let nueva : Cita :=
      { id := db.next_cita_id, cliente_id := cli_id, profesional_id := pid,
        servicio_id := sid, fecha := f_iso, hora_inicio := i.inicio,
        hora_fin := i.fin, estado := "Pendiente", precio_final := i.precio,
        nomina_pagada := false }
    insertCitas cli_id
      { db with citas := db.citas ++ [nueva], next_cita_id := db.next_cita_id + 1 }
      rest

/-- `guardar_paquete_citas`. The client lookup/creation commits on its own
connection, so when the appointment loop later fails the created client row
persists while the appointments are rolled back. -/
def guardar_paquete_citas (db : DB) (carrito : List CarritoItem)
    (nom tel hoy : String) : DB × Bool × String :=
  let nuevoCli : Tercero :=
    { id := db.next_tercero_id, doc_id := "", nombre_completo := nom,
      telefono := tel, es_cliente := true, es_proveedor := false,
      es_empleado := false, comision := 0, fecha_registro := hoy }
  let cliRes : DB × Nat :=
    match buscar_cliente db tel with
    | some t => (db, t.id)
    | none =>
      ({ db with terceros := db.terceros ++ [nuevoCli],
                 next_tercero_id := db.next_tercero_id + 1 }, db.next_tercero_id)
  match insertCitas cliRes.2 cliRes.1 carrito with
  | Except.ok db2 => (db2, true, "Agendado")
  | Except.error e => (cliRes.1, false, e)

/-- `reagendar_cita`: duration from the appointment/service join, then the
conflict check; only on a free slot are the appointment fields updated and
the status set to `Reagendado`. -/
def reagendar_cita (db : DB) (id_cita : Nat)
    (nueva_fecha_ui nueva_hora nuevo_pro : String) : DB × Bool × String :=
  match (db.citas.find? (fun c => c.id == id_cita)).bind
      (fun c => (db.servicios.find? (fun s => s.id == c.servicio_id)).map (·.duracion_min)) with
  | none => (db, false, "Cita no existe")
  | some dur =>
    match validar_choque db nueva_fecha_ui nueva_hora dur nuevo_pro with
    | (true, msg) => (db, false, msg)
    | (false, fin_o_msg) =>
      let nueva_fecha_iso := f_to_iso nueva_fecha_ui
      match lookupEmpleadoId db nuevo_pro with
      | none => (db, false, "NoneType object is not subscriptable")
      | some pid =>
        let upd : Cita → Cita := fun c =>
          if c.id == id_cita then
            { c with fecha := nueva_fecha_iso, hora_inicio := nueva_hora,
                     hora_fin := fin_o_msg, profesional_id := pid,
                     estado := "Reagendado" }
          else c
        ({ db with citas := db.citas.map upd }, true, "Cita Reagendada")

/-- `cancelar_cita`: `UPDATE citas SET estado='Cancelado' WHERE id=?`. -/
def cancelar_cita (db : DB) (id_cita : Nat) : DB × Bool × String :=
  ({ db with citas := db.citas.map (fun c =>
      if c.id == id_cita then { c with estado := "Cancelado" } else c) },
   true, "Cita Cancelada")

/-- The per-day block insertion of `crear_bloqueo`. -/
def insertBloqueos (pid : Nat) (h_ini h_fin motivo : String) :
    DB → List String → DB
  | db, [] => db
  | db, f :: rest =>
    let nuevo : Bloqueo :=
      { id := db.next_bloqueo_id, profesional_id := pid, fecha := f,
        hora_inicio := h_ini, hora_fin := h_fin, motivo := motivo }
    insertBloqueos pid h_ini h_fin motivo
      { db with bloqueos := db.bloqueos ++ [nuevo],
                next_bloqueo_id := db.next_bloqueo_id + 1 }
      rest

/-- The ISO dates `crear_bloqueo` iterates over: `d_ini + i` for
`i in range(delta.days + 1)`; an inverted range yields no days. -/
def bloqueoDias (f_inicio f_fin : String) : Option (List String) :=
  match parseDMY f_inicio, parseDMY f_fin with
  | some (d1, m1, y1), some (d2, m2, y2) =>
    let n1 := toDayNum y1 m1 d1
    let n2 := toDayNum y2 m2 d2
    some ((List.range (n2 + 1 - n1)).map (fun i => isoOfDayNum (n1 + i)))
  | _, _ => none

/-- `crear_bloqueo`: both range endpoints parsed as `%d-%m-%y` (either
failure aborts), `TODOS` encodes the global professional id 0, then one
block row per day of the range. -/
def crear_bloqueo (db : DB) (pro_nombre f_inicio f_fin h_ini h_fin motivo : String) :
    DB × Bool × String :=
  match bloqueoDias f_inicio f_fin with
  | none => (db, false, "time data does not match format %d-%m-%y")
  | some dias =>
    match (if pro_nombre == "TODOS" then some 0 else lookupEmpleadoId db pro_nombre) with
    | none => (db, false, "NoneType object is not subscriptable")
    | some pid => (insertBloqueos pid h_ini h_fin motivo db dias, true, "Bloqueo Creado")

/-- `SELECT stock FROM productos WHERE id=?` (`fetchone`). -/
def stockOf (db : DB) (prod_id : Nat) : Option Nat :=
  (db.productos.find? (fun p => p.id == prod_id)).map (·.stock)

/-- `UPDATE productos SET stock=? WHERE id=?`. -/
def setStock (db : DB) (prod_id nuevo : Nat) : DB :=
  { db with productos := db.productos.map (fun p =>
      if p.id == prod_id then { p with stock := nuevo } else p) }

/-- A cart line of `procesar_cobro`: `(prod_id, nom, cant, total, unit)`. -/
structure ProdCarrito where
  prod_id : Nat
  nom : String
  cant : Nat
  total : Nat
  unit : Nat
deriving DecidableEq, Repr

/-- The cart loop of `procesar_cobro`: each line needs `stock >= cant`
(a missing product or short stock raises), decrements the stock and records
a `ventas_productos` row against the lead appointment. -/
def cobroCarrito (id_principal : Nat) (hoy : String) :
    DB → List ProdCarrito → Except String DB
  | db, [] => Except.ok db
  | db, it :: rest =>
    match stockOf db it.prod_id with
    | some curr =>
      if curr ≥ it.cant then
        let db1 := setStock db it.prod_id (curr - it.cant)
        let venta : VentaProducto :=
          { cita_id := id_principal, producto_id := it.prod_id,
            cantidad := it.cant, precio_unitario := it.unit, fecha := hoy }
        cobroCarrito id_principal hoy
          { db1 with ventas_productos := db1.ventas_productos ++ [venta] } rest
      else Except.error ("Stock insuficiente para el producto: " ++ it.nom)
    | none => Except.error ("Stock insuficiente para el producto: " ++ it.nom)

/-- The payment-insertion loop of `procesar_cobro`: one `pagos` row per
method with a positive value. -/
def cobroPagos (id_principal : Nat) (desc hoy hora : String) :
    DB → List (String × Nat) → DB
  | db, [] => db
  | db, (m, v) :: rest =>
    if v > 0 then
      let pago : Pago :=
        { id := db.next_pago_id, cita_id := id_principal, metodo := m,
          monto := v, fecha := hoy, hora := hora, descripcion_extra := desc }
      cobroPagos id_principal desc hoy hora
        { db with pagos := db.pagos ++ [pago],
                  next_pago_id := db.next_pago_id + 1 } rest
    else cobroPagos id_principal desc hoy hora db rest

/-- Body of the `try` block of `procesar_cobro` (the splitting of the
comma-separated id string into the id list happens at the boundary). -/
def procesarCobroE (db : DB) (ids : List Nat) (pagos : List (String × Nat))
    (descuento_dinero : Nat) (cliente_nombre : String)
    (productos_carrito : List ProdCarrito) (hoy hora : String) :
    Except String DB := do
  let id_principal := ids.headD 0
  let db1 : DB :=
    { db with citas := db.citas.map (fun c =>
        if ids.contains c.id then { c with estado := "Pagado" } else c) }
  let db2 ← cobroCarrito id_principal hoy db1 productos_carrito
  let desc_pago := if productos_carrito.length > 0 then
      "Venta Servicios + Productos" else "Venta Servicios"
  let db3 := cobroPagos id_principal desc_pago hoy hora db2 pagos
  if descuento_dinero > 0 then
    let gasto : Gasto :=
      { fecha := hoy, tipo := "GASTO", categoria := "Descuento Ventas",
        descripcion := "Descuento a " ++ cliente_nombre,
        metodo := "Cruce Contable", valor := descuento_dinero }
    Except.ok { db3 with gastos := db3.gastos ++ [gasto] }
  else Except.ok db3

/-- `procesar_cobro`: commits only at the end of the `try` block; any raise
(notably short stock) rolls the connection back, leaving the state as it
was. -/
def procesar_cobro (db : DB) (ids : List Nat) (pagos : List (String × Nat))
    (descuento_dinero : Nat) (cliente_nombre : String)
    (productos_carrito : List ProdCarrito) (hoy hora : String) :
    DB × Bool × String :=
  match procesarCobroE db ids pagos descuento_dinero cliente_nombre
      productos_carrito hoy hora with
  | Except.ok db2 => (db2, true, "Venta Registrada Correctamente")
  | Except.error e => (db, false, "Error al procesar cobro: " ++ e)

/-- The two debt kinds the UI passes to `realizar_abono_deuda`. -/
inductive TipoDeuda where
  | CLIENTE : TipoDeuda
  | PROFESIONAL : TipoDeuda
deriving DecidableEq, Repr

/-- `realizar_abono_deuda`. For a client credit: full settlement deletes the
credit `pagos` row and inserts a fresh row for the whole owed amount with
the new method; a partial payment shrinks the credit row and inserts a row
for the collected part. For a professional loan: the paid amount is recorded
as an installment, the stored outstanding is clamped at zero and the status
flips to `Pagado` exactly when the clamp hits. (The `$,` formatting of the
remaining-balance message is elided.) -/
def realizar_abono_deuda (db : DB) (tipo_deuda : TipoDeuda)
    (id_registro monto_abono : Nat) (metodo_pago hoy hora : String) :
    DB × Bool × String :=
  match tipo_deuda with
  | TipoDeuda.CLIENTE =>
    match db.pagos.find? (fun p => p.id == id_registro) with
    | none => (db, false, "No existe")
    | some deuda =>
      let monto_deuda := deuda.monto
      let cita_id := deuda.cita_id
      if monto_abono ≥ monto_deuda then
        let pagoFinal : Pago :=
          { id := db.next_pago_id, cita_id := cita_id, metodo := metodo_pago,
            monto := monto_deuda, fecha := hoy, hora := hora,
            descripcion_extra := "Pago Deuda Crédito" }
        ({ db with
            pagos := db.pagos.filter (fun p => p.id != id_registro) ++ [pagoFinal],
            next_pago_id := db.next_pago_id + 1 }, true, "Saldado Total")
      else
        let nuevo_saldo := monto_deuda - monto_abono
        let pagoParcial : Pago :=
          { id := db.next_pago_id, cita_id := cita_id, metodo := metodo_pago,
            monto := monto_abono, fecha := hoy, hora := hora,
            descripcion_extra := "Abono Crédito" }
        ({ db with
            pagos := (db.pagos.map (fun p =>
              if p.id == id_registro then { p with monto := nuevo_saldo } else p))
              ++ [pagoParcial],
            next_pago_id := db.next_pago_id + 1 },
         true, "Abono OK. Restan: $" ++ toString nuevo_saldo)
  | TipoDeuda.PROFESIONAL =>
    match db.prestamos.find? (fun pr => pr.id == id_registro) with
    | none => (db, false, "No encontrado")
    | some prestamo =>
      let monto_prestamo := prestamo.monto
      let abono : AbonoPrestamo :=
        { id := db.next_abono_id, prestamo_id := id_registro,
          valor := monto_abono, fecha := hoy,
          descripcion := "Abono Voluntario", metodo := metodo_pago }
      let estado := if monto_prestamo ≤ monto_abono then "Pagado" else "Pendiente"
      let monto_final := monto_prestamo - monto_abono
      ({ db with
          abonos_prestamos := db.abonos_prestamos ++ [abono],
          prestamos := db.prestamos.map (fun pr =>
            if pr.id == id_registro then
              { pr with monto := monto_final, estado := estado }
            else pr),
          next_abono_id := db.next_abono_id + 1 }, true, "Abono Registrado")

/-- `ORDER BY id ASC` over the `(id, monto)` projection (stable insertion
sort; ids are unique in practice). -/
def insertByFst (p : Nat × Nat) : List (Nat × Nat) → List (Nat × Nat)
  | [] => [p]
  | q :: rest => if p.1 ≤ q.1 then p :: q :: rest else q :: insertByFst p rest

def sortByFst (l : List (Nat × Nat)) : List (Nat × Nat) := l.foldr insertByFst []

/-- `SELECT id, monto FROM prestamos WHERE profesional_id=? AND
estado='Pendiente' ORDER BY id ASC`. -/
def prestamosPendientes (db : DB) (pid : Nat) : List (Nat × Nat) :=
  sortByFst ((db.prestamos.filter (fun pr =>
    pr.profesional_id == pid && pr.estado == "Pendiente")).map
      (fun pr => (pr.id, pr.monto)))

/-- The loan-deduction loop of `pagar_nomina_flexible`: walks the pending
loans with the remaining budget, breaking once the budget is exhausted; a
fully covered loan is zeroed and marked `Pagado`, a partially covered one is
shrunk by the rest of the budget; each consumption inserts an installment
row with description `Deducción Nómina` (its NULL method is modelled as the
empty string). -/
def nominaLoop (hoy : String) : DB → Nat → List (Nat × Nat) → DB
  | db, _, [] => db
  | db, remanente, (pid_p, monto_orig) :: rest =>
    if remanente = 0 then db
    else if monto_orig ≤ remanente then
      let abono : AbonoPrestamo :=
        { id := db.next_abono_id, prestamo_id := pid_p, valor := monto_orig,
          fecha := hoy, descripcion := "Deducción Nómina", metodo := "" }
      let db1 :=
        { db with
            prestamos := db.prestamos.map (fun pr =>
              if pr.id == pid_p then { pr with estado := "Pagado", monto := 0 }
              else pr),
            abonos_prestamos := db.abonos_prestamos ++ [abono],
            next_abono_id := db.next_abono_id + 1 }
      nominaLoop hoy db1 (remanente - monto_orig) rest
    else
      let abono : AbonoPrestamo :=
        { id := db.next_abono_id, prestamo_id := pid_p, valor := remanente,
          fecha := hoy, descripcion := "Deducción Nómina", metodo := "" }
      let db1 :=
        { db with
            prestamos := db.prestamos.map (fun pr =>
              if pr.id == pid_p then { pr with monto := monto_orig - remanente }
              else pr),
            abonos_prestamos := db.abonos_prestamos ++ [abono],
            next_abono_id := db.next_abono_id + 1 }
      nominaLoop hoy db1 0 rest

/-- The payout loop of `pagar_nomina_flexible`: one `Nomina` expense per
method with a positive value. -/
def nominaGastos (profesional_nombre hoy : String) :
    DB → List (String × Nat) → DB
  | db, [] => db
  | db, (met, val) :: rest =>
    if val > 0 then
      let gasto : Gasto :=
        { fecha := hoy, tipo := "GASTO", categoria := "Nomina",
          descripcion := "Nomina " ++ profesional_nombre, metodo := met,
          valor := val }
      nominaGastos profesional_nombre hoy
        { db with gastos := db.gastos ++ [gasto] } rest
    else nominaGastos profesional_nombre hoy db rest

/-- `pagar_nomina_flexible`: professional lookup (a miss raises and rolls
everything back), flags the listed appointments as payroll-settled, runs the
FIFO loan deduction when the amortization budget is positive, then records
the payout expenses. -/
def pagar_nomina_flexible (db : DB) (ids_citas : List Nat)
    (abono_prestamos : Nat) (lista_pagos_nomina : List (String × Nat))
    (profesional_nombre hoy : String) : DB × Bool × String :=
  match lookupEmpleadoId db profesional_nombre with
  | none => (db, false, "NoneType object is not subscriptable")
  | some pid =>
    let db1 : DB :=
      { db with citas := db.citas.map (fun c =>
          if ids_citas.contains c.id then { c with nomina_pagada := true } else c) }
    let db2 :=
      if abono_prestamos > 0 then
        nominaLoop hoy db1 abono_prestamos (prestamosPendientes db1 pid)
      else db1
    (nominaGastos profesional_nombre hoy db2 lista_pagos_nomina,
     true, "Nómina Liquidada")

/-- `crear_prestamo`: inserts the loan (status defaults to `Pendiente`) and
a `Prestamos` expense for the disbursed cash. -/
def crear_prestamo (db : DB) (profesional : String) (monto : Nat)
    (desc hoy : String) : DB × Bool × String :=
  match lookupEmpleadoId db profesional with
  | none => (db, false, "NoneType object is not subscriptable")
  | some pid =>
    let prestamo : Prestamo :=
      { id := db.next_prestamo_id, profesional_id := pid, monto := monto,
        fecha := hoy, estado := "Pendiente", descripcion := desc }
    let gasto : Gasto :=
      { fecha := hoy, tipo := "GASTO", categoria := "Prestamos",
        descripcion := "Prestamo a " ++ profesional, metodo := "Efectivo",
        valor := monto }
    ({ db with prestamos := db.prestamos ++ [prestamo],
               gastos := db.gastos ++ [gasto],
               next_prestamo_id := db.next_prestamo_id + 1 },
     true, "Préstamo registrado")

/-- The item loop of `registrar_compra`: one detail row per item and the
stock incremented when the product exists. -/
def compraItems (id_compra : Nat) : DB → List (Nat × Nat × Nat) → DB
  | db, [] => db
  | db, (prod_id, cant, costo) :: rest =>
    let det : DetalleCompra :=
      { compra_id := id_compra, producto_id := prod_id, cantidad := cant,
        costo_unitario := costo }
    let db1 := { db with detalle_compras := db.detalle_compras ++ [det] }
    let db2 :=
      match stockOf db1 prod_id with
      | some curr => setStock db1 prod_id (curr + cant)
      | none => db1
    compraItems id_compra db2 rest

/-- `registrar_compra`: the purchase starts `Pendiente` exactly for the
`CREDITO` method (else `Pagado`); non-credit purchases also record an
immediate `Compra Mercancia` expense for the total. -/
def registrar_compra (db : DB) (id_prov : Nat) (items : List (Nat × Nat × Nat))
    (metodo_pago : String) (total : Nat) (observacion hoy : String) :
    DB × Bool × String :=
  let estado := if metodo_pago == "CREDITO" then "Pendiente" else "Pagado"
  let id_compra := db.next_compra_id
  let compra : Compra :=
    { id := id_compra, proveedor_id := id_prov, fecha := hoy, total := total,
      metodo_pago := metodo_pago, estado := estado, observacion := observacion }
  let db1 := { db with compras := db.compras ++ [compra],
                       next_compra_id := db.next_compra_id + 1 }
  let db2 := compraItems id_compra db1 items
  let db3 :=
    if metodo_pago != "CREDITO" then
      let gasto : Gasto :=
        { fecha := hoy, tipo := "COSTO", categoria := "Compra Mercancia",
          descripcion := "Compra ID:" ++ toString id_compra ++ " Prov:" ++ toString id_prov,
          metodo := metodo_pago, valor := total }
      { db2 with gastos := db2.gastos ++ [gasto] }
    else db2
  (db3, true, "Compra registrada y Stock actualizado")

/-- `SELECT SUM(monto) FROM abonos_proveedores WHERE compra_id=?`. -/
def sumAbonosCompra (db : DB) (id_compra : Nat) : Nat :=
  ((db.abonos_proveedores.filter (fun a => a.compra_id == id_compra)).map
    (·.monto)).sum

/-- `abonar_proveedor`: inserts the supplier installment and its matching
`Pago Proveedor` expense, then — if the purchase exists — compares the
cumulative installments (including the fresh one, visible inside the open
transaction) with the total and flips the status to `Pagado` at or beyond
it; a missing purchase raises and rolls the whole call back. -/
def abonar_proveedor (db : DB) (id_compra monto : Nat) (metodo hoy : String) :
    DB × Bool × String :=
  let abono : AbonoProveedor :=
    { compra_id := id_compra, monto := monto, fecha := hoy, metodo := metodo }
  let gasto : Gasto :=
    { fecha := hoy, tipo := "GASTO", categoria := "Pago Proveedor",
      descripcion := "Abono Compra #" ++ toString id_compra, metodo := metodo,
      valor := monto }
  let db1 := { db with abonos_proveedores := db.abonos_proveedores ++ [abono],
                       gastos := db.gastos ++ [gasto] }
  match db1.compras.find? (fun c => c.id == id_compra) with
  | none => (db, false, "NoneType object is not subscriptable")
  | some compra =>
    let pagado := sumAbonosCompra db1 id_compra
    let db2 :=
      if pagado ≥ compra.total then
        { db1 with compras := db1.compras.map (fun c =>
            if c.id == id_compra then { c with estado := "Pagado" } else c) }
      else db1
    (db2, true, "Abono registrado correctamente")

/-- A scheduled interval as drawn from a non-cancelled appointment or from a
block; a block with professional id 0 applies to every professional. -/
structure Iv where
  pid : Nat
  global : Bool
  fecha : String
  hora_inicio : String
  hora_fin : String
deriving DecidableEq, Repr

def ivOfCita (c : Cita) : Iv :=
  { pid := c.profesional_id, global := false, fecha := c.fecha,
    hora_inicio := c.hora_inicio, hora_fin := c.hora_fin }

def ivOfBloqueo (b : Bloqueo) : Iv :=
  { pid := b.profesional_id, global := b.profesional_id == 0, fecha := b.fecha,
    hora_inicio := b.hora_inicio, hora_fin := b.hora_fin }

def citaIvs (db : DB) : List Iv :=
  (db.citas.filter (fun c => c.estado != "Cancelado")).map ivOfCita

def bloqueoIvs (db : DB) : List Iv := db.bloqueos.map ivOfBloqueo

/-- Every interval currently occupying the calendar. -/
def ivs (db : DB) : List Iv := citaIvs db ++ bloqueoIvs db

/-- Two interval entries concern the same (professional, date). -/
def sharesB (x y : Iv) : Bool :=
  x.fecha == y.fecha && (x.global || y.global || x.pid == y.pid)

/-- The half-open overlap test `start1 < end2 AND end1 > start2` on the
parsed times (entries whose times do not parse carry no interval). -/
def overlapB (x y : Iv) : Bool :=
  match parseHM x.hora_inicio, parseHM x.hora_fin,
      parseHM y.hora_inicio, parseHM y.hora_fin with
  | some s1, some e1, some s2, some e2 => decide (s1 < e2) && decide (e1 > s2)
  | _, _, _, _ => false

def ivSep (x y : Iv) : Prop := sharesB x y = true → overlapB x y = false

/-- The no-overlap invariant of the spec: every pair of distinct occupied
intervals on the same (professional, date) passes the half-open
separation test. -/
def noOverlap (db : DB) : Prop := (ivs db).Pairwise ivSep

/-- Appointment rows carry fresh unique ids (what AUTOINCREMENT provides). -/
def CitasOk (db : DB) : Prop :=
  (∀ c ∈ db.citas, c.id < db.next_cita_id) ∧ (db.citas.map (·.id)).Nodup

/-- The scheduling operations exactly as the source exposes them (claim C1
as stated): booking insertion, block creation, rescheduling, cancellation. -/
inductive SchedStep : DB → DB → Prop
  | agendar : ∀ db carrito nom tel hoy,
      SchedStep db (guardar_paquete_citas db carrito nom tel hoy).1
  | bloqueo : ∀ db pro f1 f2 h1 h2 mot,
      SchedStep db (crear_bloqueo db pro f1 f2 h1 h2 mot).1
  | reagendar : ∀ db idc f h pro,
      SchedStep db (reagendar_cita db idc f h pro).1
  | cancelar : ∀ db idc, SchedStep db (cancelar_cita db idc).1

def SchedReach (db0 db : DB) : Prop := Relation.ReflTransGen SchedStep db0 db

def bloqueoPid (db : DB) (pro_nombre : String) : Option Nat :=
  if pro_nombre == "TODOS" then some 0 else lookupEmpleadoId db pro_nombre

def mkBloqueoIv (pid : Nat) (fecha h_ini h_fin : String) : Iv :=
  { pid := pid, global := pid == 0, fecha := fecha,
    hora_inicio := h_ini, hora_fin := h_fin }

/-- The guarded scheduling operations: a booking is inserted only in the
single-item shape of the API endpoint, immediately after `validar_choque`
approved precisely that window, and a block call may only add blocks that do
not collide with the standing calendar (the source itself never checks the
latter). -/
inductive GSchedStep : DB → DB → Prop
  | agendar : ∀ db item nom tel hoy dur,
      validar_choque db item.fecha item.inicio dur item.profesional
        = (false, item.fin) →
      GSchedStep db (guardar_paquete_citas db [item] nom tel hoy).1
  | bloqueo : ∀ db pro f1 f2 h1 h2 mot pid dias,
      bloqueoPid db pro = some pid →
      bloqueoDias f1 f2 = some dias →
      dias.Nodup →
      (∀ d ∈ dias, ∀ e ∈ ivs db, ivSep (mkBloqueoIv pid d h1 h2) e) →
      GSchedStep db (crear_bloqueo db pro f1 f2 h1 h2 mot).1
  | reagendar : ∀ db idc f h pro,
      GSchedStep db (reagendar_cita db idc f h pro).1
  | cancelar : ∀ db idc, GSchedStep db (cancelar_cita db idc).1

def GSchedReach (db0 db : DB) : Prop := Relation.ReflTransGen GSchedStep db0 db

/-- `Σ Installment.value` for one loan. -/
def sumInstallments (db : DB) (lid : Nat) : Nat :=
  ((db.abonos_prestamos.filter (fun a => a.prestamo_id == lid)).map (·.valor)).sum

/-- The amortization operations of claim C4: voluntary professional-loan
installments and payroll liquidation. -/
inductive AmortStep : DB → DB → Prop
  | abono : ∀ db idr m met hoy hora,
      AmortStep db (realizar_abono_deuda db TipoDeuda.PROFESIONAL idr m met hoy hora).1
  | nomina : ∀ db ids ab lp nom hoy,
      AmortStep db (pagar_nomina_flexible db ids ab lp nom hoy).1

def AmortReach (db0 db : DB) : Prop := Relation.ReflTransGen AmortStep db0 db

/-- Per-loan inductive invariant: there is at most one row for the loan, its
stored outstanding is the clamped difference, and `Pagado` coincides with a
zero outstanding (the row only ever holds the two statuses). -/
def LoanInv (M lid : Nat) (db : DB) : Prop :=
  db.prestamos.countP (fun pr => pr.id == lid) ≤ 1 ∧
  ∀ pr ∈ db.prestamos, pr.id = lid →
    pr.monto = M - sumInstallments db lid ∧
    (pr.estado = "Pagado" ↔ pr.monto = 0) ∧
    (pr.estado = "Pagado" ∨ pr.estado = "Pendiente")

/-- Modelled from the spec: the FIFO amortization walk of claim C7 (with the
amendment that the walk stops as soon as the budget is exhausted). For each
loan it touches it yields `(id, new outstanding, new status if changed,
installment value)`: a loan covered by the remaining budget is zeroed and
marked `Pagado`; the first loan exceeding the remaining budget is shrunk by
exactly that budget and the walk ends. -/
def fifoWalk (B : Nat) : List (Nat × Nat) → List (Nat × Nat × Option String × Nat)
  | [] => []
  | (i, m) :: rest =>
    if B = 0 then []
    else if m ≤ B then (i, 0, some "Pagado", m) :: fifoWalk (B - m) rest
    else [(i, m - B, none, B)]

/-- Applies the walk outcomes to the loan rows (by id; untouched rows pass
through). -/
def applyWalk (outs : List (Nat × Nat × Option String × Nat))
    (l : List Prestamo) : List Prestamo :=
  l.map (fun pr =>
    match outs.find? (fun o => o.1 == pr.id) with
    | some (_, m2, e2, _) => { pr with monto := m2, estado := e2.getD pr.estado }
    | none => pr)

/-- The installment rows the walk records, with consecutive fresh ids. -/
def walkAbonos (hoy : String) (n0 : Nat) :
    List (Nat × Nat × Option String × Nat) → List AbonoPrestamo
  | [] => []
  | (i, _, _, v) :: rest =>
    { id := n0, prestamo_id := i, valor := v, fecha := hoy,
      descripcion := "Deducción Nómina", metodo := "" } :: walkAbonos hoy (n0 + 1) rest

/-- The settlement operations of claim C8 after the purchase registration. -/
inductive AbonoProvStep : DB → DB → Prop
  | step : ∀ db idc m met hoy, AbonoProvStep db (abonar_proveedor db idc m met hoy).1

def AbonoProvReach (db0 db : DB) : Prop := Relation.ReflTransGen AbonoProvStep db0 db

/-- Per-purchase inductive invariant for claim C8. -/
def CompraInv (T : Nat) (mu : String) (cid : Nat) (db : DB) : Prop :=
  db.compras.countP (fun c => c.id == cid) ≤ 1 ∧
  ∀ c ∈ db.compras, c.id = cid →
    c.total = T ∧ c.metodo_pago = mu ∧
    (c.estado = "Pagado" ↔ (mu ≠ "CREDITO" ∨ sumAbonosCompra db cid ≥ T))

/-- A seeded store: one professional and one service (as
`inicializar_tablas` provides), no appointments, no blocks, empty ledger. -/
def tAndrea : Tercero :=
  { id := 1, doc_id := "100", nombre_completo := "Andrea", telefono := "300",
    es_cliente := false, es_proveedor := false, es_empleado := true,
    comision := 50, fecha_registro := "2025-01-01" }

def sCejas : Servicio :=
  { id := 1, nombre := "Cejas 3D", duracion_min := 60, precio := 50000 }

def dbBase : DB :=
  { terceros := [tAndrea], servicios := [sCejas], productos := [],
    citas := [], bloqueos := [], pagos := [], gastos := [], prestamos := [],
    abonos_prestamos := [], compras := [], detalle_compras := [],
    abonos_proveedores := [], ventas_productos := [],
    next_tercero_id := 2, next_cita_id := 1, next_pago_id := 1,
    next_prestamo_id := 1, next_abono_id := 1, next_compra_id := 1,
    next_bloqueo_id := 1 }

def cita0900 : Cita :=
  { id := 1, cliente_id := 2, profesional_id := 1, servicio_id := 1,
    fecha := "2025-12-21", hora_inicio := "09:00", hora_fin := "10:00",
    estado := "Pendiente", precio_final := 50000, nomina_pagada := false }

def dbConCita : DB := { dbBase with citas := [cita0900], next_cita_id := 2 }

def itemC1 : CarritoItem :=
  { profesional := "Andrea", servicio := "Cejas 3D", fecha := "21-12-25",
    inicio := "09:00", fin := "10:00", precio := 50000 }

def prodShampoo : Producto := { id := 1, nombre := "Shampoo", precio := 20000, stock := 5 }

def dbC3 : DB := { dbConCita with productos := [prodShampoo] }

def pagoCredito : Pago :=
  { id := 1, cita_id := 1, metodo := "CREDITO", monto := 100,
    fecha := "2025-12-21", hora := "10:00", descripcion_extra := "Venta Servicios" }

def dbC5 : DB := { dbConCita with pagos := [pagoCredito], next_pago_id := 2 }

def prestamo40 : Prestamo :=
  { id := 1, profesional_id := 1, monto := 40, fecha := "2025-01-02",
    estado := "Pendiente", descripcion := "Prestamo herramientas" }

def dbC6 : DB := { dbBase with prestamos := [prestamo40], next_prestamo_id := 2 }

def prestamoL1 : Prestamo :=
  { id := 1, profesional_id := 1, monto := 50, fecha := "2025-01-02",
    estado := "Pendiente", descripcion := "L1" }

def prestamoL2 : Prestamo :=
  { id := 2, profesional_id := 1, monto := 100, fecha := "2025-01-03",
    estado := "Pendiente", descripcion := "L2" }

def dbC7 : DB := { dbBase with prestamos := [prestamoL1, prestamoL2], next_prestamo_id := 3 }

def prestamoZ : Prestamo :=
  { id := 2, profesional_id := 1, monto := 0, fecha := "2025-01-03",
    estado := "Pendiente", descripcion := "Saldo cero" }

def dbC7z : DB := { dbBase with prestamos := [prestamoL1, prestamoZ], next_prestamo_id := 3 }

/-- C8 counterexample state: a cash purchase of 100. -/
def dbC8cash : DB :=
  (registrar_compra dbBase 1 [] "Efectivo" 100 "Compra Inventario" "2025-01-02").1

/-- C8 witness state: a credit purchase of 100. -/
def dbC8cred : DB :=
  (registrar_compra dbBase 1 [] "CREDITO" 100 "Compra Inventario" "2025-01-02").1

/-- C10: `validar_choque` is total by construction (the catch-all `except`
is the error branch of `validarChoqueE`), and it fails closed: an
unparseable start time or an unmatched employee name yields `True`
(conflict) with an error message, never `False`. -/
theorem validar_choque_fail_closed (db : DB) (fecha_ui hora_ini : String)
    (duracion : Nat) (pro_nombre : String)
    (h : parseHM hora_ini = none ∨ lookupEmpleadoId db pro_nombre = none) :
    (validar_choque db fecha_ui hora_ini duracion pro_nombre).1 = true := by
  rcases h with h | h
  · simp [validar_choque, validarChoqueE, parseHME, h, Bind.bind, Except.bind]
  · rcases hp : parseHM hora_ini with _ | ini
    · simp [validar_choque, validarChoqueE, parseHME, hp, Bind.bind, Except.bind]
    · simp [validar_choque, validarChoqueE, parseHME, hp, h, Bind.bind, Except.bind]

/-- Witness for C10 at a concrete bad start time. -/
theorem validar_choque_fail_closed_witness :
    parseHM "2pm" = none ∧
    (validar_choque dbBase "21-12-25" "2pm" 60 "Andrea").1 = true :=
  ⟨by decide,
   validar_choque_fail_closed dbBase "21-12-25" "2pm" 60 "Andrea" (Or.inl (by decide))⟩

/-- C6 counterexample: applying 150 against a client credit of 100 is not
rejected — the call reports success and rewrites the ledger. -/
theorem overpago_counterexample :
    (realizar_abono_deuda dbC5 TipoDeuda.CLIENTE 1 150 "Nequi" "2025-12-22" "11:00").2.1 = true ∧
    (realizar_abono_deuda dbC5 TipoDeuda.CLIENTE 1 150 "Nequi" "2025-12-22" "11:00").1 ≠ dbC5 := by
  exact ⟨by decide, by decide⟩

/-- C6 amended: an applied amount strictly beyond what is owed is accepted.
A client credit is settled in full: the credit row is deleted and a fresh
payment for the owed amount (not the applied amount) is inserted. A
professional loan records the whole applied amount as an installment while
the stored outstanding is clamped to 0 and the status flips to `Pagado`. -/
theorem overpago_accepted :
    (∀ db idp m met hoy hora p, db.pagos.find? (fun q => q.id == idp) = some p →
      m > p.monto →
      (realizar_abono_deuda db TipoDeuda.CLIENTE idp m met hoy hora).2.1 = true ∧
      (realizar_abono_deuda db TipoDeuda.CLIENTE idp m met hoy hora).1.pagos =
        db.pagos.filter (fun q => q.id != idp) ++
          [{ id := db.next_pago_id, cita_id := p.cita_id, metodo := met,
             monto := p.monto, fecha := hoy, hora := hora,
             descripcion_extra := "Pago Deuda Crédito" }]) ∧
    (∀ db idr m met hoy hora pr, db.prestamos.find? (fun q => q.id == idr) = some pr →
      m > pr.monto →
      (realizar_abono_deuda db TipoDeuda.PROFESIONAL idr m met hoy hora).2.1 = true ∧
      (realizar_abono_deuda db TipoDeuda.PROFESIONAL idr m met hoy hora).1.abonos_prestamos =
        db.abonos_prestamos ++
          [{ id := db.next_abono_id, prestamo_id := idr, valor := m, fecha := hoy,
             descripcion := "Abono Voluntario", metodo := met }] ∧
      (∀ q ∈ (realizar_abono_deuda db TipoDeuda.PROFESIONAL idr m met hoy hora).1.prestamos,
        q.id = idr → q.monto = 0 ∧ q.estado = "Pagado")) := by
  constructor
  · intro db idp m met hoy hora p hfind hm
    have hge : m ≥ p.monto := Nat.le_of_lt hm
    simp [realizar_abono_deuda, hfind, hge]
  · intro db idr m met hoy hora pr hfind hm
    have hle : pr.monto ≤ m := Nat.le_of_lt hm
    have hz : pr.monto - m = 0 := Nat.sub_eq_zero_of_le hle
    refine ⟨by simp [realizar_abono_deuda, hfind], by simp [realizar_abono_deuda, hfind], ?_⟩
    intro q hq hqid
    simp only [realizar_abono_deuda, hfind] at hq
    simp only [List.mem_map] at hq
    obtain ⟨x, _, hx⟩ := hq
    by_cases hxi : x.id == idr
    · simp [hxi, hle, hz] at hx
      subst hx
      simp
    · simp [hxi] at hx
      subst hx
      simp [Nat.beq_eq] at hxi
      exact absurd hqid hxi

/-- Witness for the amended C6 at both debt kinds. -/
theorem overpago_accepted_witness :
    (realizar_abono_deuda dbC5 TipoDeuda.CLIENTE 1 150 "Nequi" "2025-12-22" "11:00").2.1 = true ∧
    (realizar_abono_deuda dbC6 TipoDeuda.PROFESIONAL 1 50 "Nequi" "2025-12-22" "11:00").2.1 = true :=
  ⟨(overpago_accepted.1 dbC5 1 150 "Nequi" "2025-12-22" "11:00" pagoCredito
      (by decide) (by decide)).1,
   (overpago_accepted.2 dbC6 1 50 "Nequi" "2025-12-22" "11:00" prestamo40
      (by decide) (by decide)).1⟩

/-- C5: settling a client credit. At or above the owed amount the credit row
is deleted and one final payment for the full owed amount with the new
method is appended; below it the credit row is shrunk by the applied
amount and a separate payment for the collected part is appended. A credit
of 100 settled by 40 then 60 ends with no outstanding credit and fresh
non-credit payments summing to 100. -/
theorem settle_client_credit_spec :
    (∀ db idp m met hoy hora p, db.pagos.find? (fun q => q.id == idp) = some p →
      (m ≥ p.monto →
        (realizar_abono_deuda db TipoDeuda.CLIENTE idp m met hoy hora).2.1 = true ∧
        (realizar_abono_deuda db TipoDeuda.CLIENTE idp m met hoy hora).1.pagos =
          db.pagos.filter (fun q => q.id != idp) ++
            [{ id := db.next_pago_id, cita_id := p.cita_id, metodo := met,
               monto := p.monto, fecha := hoy, hora := hora,
               descripcion_extra := "Pago Deuda Crédito" }]) ∧
      (m < p.monto →
        (realizar_abono_deuda db TipoDeuda.CLIENTE idp m met hoy hora).2.1 = true ∧
        (realizar_abono_deuda db TipoDeuda.CLIENTE idp m met hoy hora).1.pagos =
          db.pagos.map (fun q => if q.id == idp then { q with monto := p.monto - m } else q) ++
            [{ id := db.next_pago_id, cita_id := p.cita_id, metodo := met,
               monto := m, fecha := hoy, hora := hora,
               descripcion_extra := "Abono Crédito" }])) ∧
    ((((realizar_abono_deuda (realizar_abono_deuda dbC5 TipoDeuda.CLIENTE 1 40 "Efectivo" "2025-12-22" "11:00").1
        TipoDeuda.CLIENTE 1 60 "Nequi" "2025-12-23" "11:00").1.pagos.filter
          (fun q => q.metodo == "CREDITO")).map (·.monto)).sum = 0 ∧
     (((realizar_abono_deuda (realizar_abono_deuda dbC5 TipoDeuda.CLIENTE 1 40 "Efectivo" "2025-12-22" "11:00").1
        TipoDeuda.CLIENTE 1 60 "Nequi" "2025-12-23" "11:00").1.pagos.filter
          (fun q => q.metodo != "CREDITO")).map (·.monto)).sum = 100) := by
  constructor
  · intro db idp m met hoy hora p hfind
    constructor
    · intro hge
      simp [realizar_abono_deuda, hfind, hge]
    · intro hlt
      have hnge : ¬ m ≥ p.monto := Nat.not_le.mpr hlt
      simp [realizar_abono_deuda, hfind, hnge]
  · exact ⟨by decide, by decide⟩

/-- Witness for C5: the two-step settlement of the 100 credit. -/
theorem settle_client_credit_spec_witness :
    (realizar_abono_deuda dbC5 TipoDeuda.CLIENTE 1 40 "Efectivo" "2025-12-22" "11:00").2.1 = true ∧
    (realizar_abono_deuda dbC5 TipoDeuda.CLIENTE 1 40 "Efectivo" "2025-12-22" "11:00").1.pagos =
      dbC5.pagos.map (fun q => if q.id == 1 then { q with monto := 100 - 40 } else q) ++
        [{ id := 2, cita_id := 1, metodo := "Efectivo", monto := 40,
           fecha := "2025-12-22", hora := "11:00", descripcion_extra := "Abono Crédito" }] :=
  (settle_client_credit_spec.1 dbC5 1 40 "Efectivo" "2025-12-22" "11:00" pagoCredito
      (by decide)).2 (by decide)

/-- C4 counterexample: a loan created with original amount 0 starts as
`Pendiente` with outstanding 0 and no installments, so before any
amortization the claimed equivalence (status Paid iff outstanding 0)
already fails on it. -/
theorem loan_invariant_counterexample :
    (crear_prestamo dbBase "Andrea" 0 "Adelanto" "2025-01-02").2.1 = true ∧
    (∀ pr ∈ (crear_prestamo dbBase "Andrea" 0 "Adelanto" "2025-01-02").1.prestamos,
      pr.id = 1 →
        pr.monto = 0 ∧
        sumInstallments (crear_prestamo dbBase "Andrea" 0 "Adelanto" "2025-01-02").1 1 = 0) ∧
    ¬ (∀ pr ∈ (crear_prestamo dbBase "Andrea" 0 "Adelanto" "2025-01-02").1.prestamos,
        pr.id = 1 → (pr.estado = "Pagado" ↔ pr.monto = 0)) := by
  refine ⟨by decide, by decide, by decide⟩

/-- C8 counterexample: a cash purchase (method ≠ CREDITO) of total 100 is
created already `Pagado` with zero supplier installments, refuting the
claimed equivalence (Paid iff installments ≥ total) right after
`registrar_compra`. -/
theorem compra_invariant_counterexample :
    (registrar_compra dbBase 1 [] "Efectivo" 100 "Compra Inventario" "2025-01-02").2.1 = true ∧
    ¬ (∀ c ∈ dbC8cash.compras, c.id = 1 →
        (c.estado = "Pagado" ↔ sumAbonosCompra dbC8cash 1 ≥ c.total)) := by
  refine ⟨by decide, by decide⟩

theorem stockOf_setStock (db : DB) (pid v q : Nat) :
    stockOf (setStock db pid v) q =
      (stockOf db q).map (fun s => if q = pid then v else s) := by
  have hpred : ((fun (p : Producto) => p.id == q) ∘
      (fun p => if p.id == pid then { p with stock := v } else p)) =
      fun (p : Producto) => p.id == q := by
    funext p
    by_cases h : p.id = pid <;> simp [h]
  unfold stockOf setStock
  rw [List.find?_map]
  rw [hpred]
  cases hf : db.productos.find? (fun p => p.id == q) with
  | none => simp
  | some p0 =>
    have hq : p0.id = q := by
      have := List.find?_some hf
      simpa using this
    by_cases hpq : q = pid
    · simp [hq, hpq]
    · simp [hq, hpq]

theorem cobroCarrito_cons_ok (idp : Nat) (hoy : String) (hd : ProdCarrito)
    (tl : List ProdCarrito) (db0 : DB) (curr : Nat)
    (hcur : stockOf db0 hd.prod_id = some curr) (hge : curr ≥ hd.cant) :
    cobroCarrito idp hoy db0 (hd :: tl) =
      cobroCarrito idp hoy
        { setStock db0 hd.prod_id (curr - hd.cant) with
          ventas_productos := (setStock db0 hd.prod_id (curr - hd.cant)).ventas_productos ++
            [{ cita_id := idp, producto_id := hd.prod_id, cantidad := hd.cant,
               precio_unitario := hd.unit, fecha := hoy }] } tl := by
  rw [cobroCarrito, hcur]
  simp [hge]

theorem cobroCarrito_err (db : DB) (idp : Nat) (hoy : String) :
    ∀ (l : List ProdCarrito) (db0 : DB),
      (∀ q s, stockOf db0 q = some s → ∃ s1, stockOf db q = some s1 ∧ s ≤ s1) →
      (∃ it ∈ l, ∃ s, stockOf db it.prod_id = some s ∧ s < it.cant) →
      ∃ e, cobroCarrito idp hoy db0 l = Except.error e := by
  intro l
  induction l with
  | nil => intro db0 _ hex; simp at hex
  | cons hd tl ih =>
    intro db0 hinv hex
    cases hcur : stockOf db0 hd.prod_id with
    | none =>
      refine ⟨"Stock insuficiente para el producto: " ++ hd.nom, ?_⟩
      rw [cobroCarrito, hcur]
    | some curr =>
      by_cases hge : curr ≥ hd.cant
      · have hex2 : ∃ it ∈ tl, ∃ s, stockOf db it.prod_id = some s ∧ s < it.cant := by
          rcases hex with ⟨it, hit, s, hs, hslt⟩
          rcases List.mem_cons.mp hit with rfl | hmem
          · obtain ⟨s1, hs1, hle⟩ := hinv _ _ hcur
            rw [hs] at hs1
            injection hs1 with h1
            omega
          · exact ⟨it, hmem, s, hs, hslt⟩
        have hinv2 : ∀ q s,
            stockOf { setStock db0 hd.prod_id (curr - hd.cant) with
              ventas_productos := (setStock db0 hd.prod_id (curr - hd.cant)).ventas_productos ++
                [{ cita_id := idp, producto_id := hd.prod_id, cantidad := hd.cant,
                   precio_unitario := hd.unit, fecha := hoy }] } q = some s →
            ∃ s1, stockOf db q = some s1 ∧ s ≤ s1 := by
          intro q s hq
          have hq2 : stockOf (setStock db0 hd.prod_id (curr - hd.cant)) q = some s := hq
          rw [stockOf_setStock] at hq2
          cases hq0 : stockOf db0 q with
          | none => simp [hq0] at hq2
          | some s0 =>
            rw [hq0] at hq2
            simp only [Option.map_some'] at hq2
            injection hq2 with hq3
            obtain ⟨s1, hs1, hle⟩ := hinv _ _ hq0
            by_cases hqp : q = hd.prod_id
            · subst hqp
              rw [hq0] at hcur
              injection hcur with hc
              subst hc
              refine ⟨s1, hs1, ?_⟩
              simp at hq3
              omega
            · rw [if_neg hqp] at hq3
              exact ⟨s1, hs1, hq3 ▸ hle⟩
        obtain ⟨e, he⟩ := ih _ hinv2 hex2
        refine ⟨e, ?_⟩
        rw [cobroCarrito_cons_ok idp hoy hd tl db0 curr hcur hge]
        exact he
      · refine ⟨"Stock insuficiente para el producto: " ++ hd.nom, ?_⟩
        rw [cobroCarrito, hcur]
        simp [hge]

theorem procesarCobroE_err (db : DB) (ids : List Nat)
    (pagos : List (String × Nat)) (descuento : Nat) (nombre : String)
    (carrito : List ProdCarrito) (hoy hora : String) (e : String)
    (he : cobroCarrito (ids.headD 0) hoy
      { db with citas := db.citas.map (fun c =>
          if ids.contains c.id then { c with estado := "Pagado" } else c) } carrito
        = Except.error e) :
    procesarCobroE db ids pagos descuento nombre carrito hoy hora =
      Except.error e := by
  simp only [procesarCobroE, Bind.bind, Except.bind]
  rw [he]

/-- C3: `procesar_cobro` is all-or-nothing. If any cart line asks for more
than the product currently has in stock, the call fails and the state is
returned exactly as it was: no stock decrement survives (even for lines
processed earlier in the same call), no appointment is marked `Pagado`, no
payment row and no discount expense is inserted. -/
theorem procesar_cobro_all_or_nothing (db : DB) (ids : List Nat)
    (pagos : List (String × Nat)) (descuento : Nat) (nombre : String)
    (carrito : List ProdCarrito) (hoy hora : String)
    (h : ∃ it ∈ carrito, ∃ s, stockOf db it.prod_id = some s ∧ s < it.cant) :
    (procesar_cobro db ids pagos descuento nombre carrito hoy hora).1 = db ∧
    (procesar_cobro db ids pagos descuento nombre carrito hoy hora).2.1 = false := by
  have hinv : ∀ q s,
      stockOf { db with citas := db.citas.map (fun c =>
        if ids.contains c.id then { c with estado := "Pagado" } else c) } q = some s →
      ∃ s1, stockOf db q = some s1 ∧ s ≤ s1 := by
    intro q s hq
    exact ⟨s, hq, le_refl s⟩
  obtain ⟨e, he⟩ := cobroCarrito_err db (ids.headD 0) hoy carrito _ hinv h
  have hrun := procesarCobroE_err db ids pagos descuento nombre carrito hoy hora e he
  constructor <;> simp [procesar_cobro, hrun]

/-- Witness for C3: a cart asking 9 units of a product stocked at 5. -/
theorem procesar_cobro_all_or_nothing_witness :
    (procesar_cobro dbC3 [1] [("Efectivo", 300)] 0 "Cli"
      [{ prod_id := 1, nom := "Shampoo", cant := 9, total := 180000, unit := 20000 }]
      "2025-12-21" "11:00").1 = dbC3 ∧
    (procesar_cobro dbC3 [1] [("Efectivo", 300)] 0 "Cli"
      [{ prod_id := 1, nom := "Shampoo", cant := 9, total := 180000, unit := 20000 }]
      "2025-12-21" "11:00").2.1 = false :=
  procesar_cobro_all_or_nothing dbC3 [1] [("Efectivo", 300)] 0 "Cli"
    [{ prod_id := 1, nom := "Shampoo", cant := 9, total := 180000, unit := 20000 }]
    "2025-12-21" "11:00"
    ⟨{ prod_id := 1, nom := "Shampoo", cant := 9, total := 180000, unit := 20000 },
      by decide, 5, by decide, by decide⟩

theorem checkCitas_not_none (ini fin : Nat) :
    ∀ (l : List Cita) (c : Cita), c ∈ l →
      ∀ a b, parseHM c.hora_inicio = some a → parseHM c.hora_fin = some b →
      ini < b → fin > a →
      checkCitas ini fin l ≠ Except.ok none := by
  intro l
  induction l with
  | nil => intro c hc; simp at hc
  | cons x rest ih =>
    intro c hc a b ha hb hov1 hov2
    rcases List.mem_cons.mp hc with rfl | hmem
    · simp only [checkCitas, parseHME, hb, ha, Bind.bind, Except.bind]
      rw [if_pos hov1, if_pos hov2]
      simp
    · cases hx : parseHM x.hora_fin with
      | none => simp [checkCitas, parseHME, hx, Bind.bind, Except.bind]
      | some cf =>
        by_cases h1 : ini < cf
        · cases hxi : parseHM x.hora_inicio with
          | none => simp [checkCitas, parseHME, hx, hxi, h1, Bind.bind, Except.bind]
          | some ci =>
            by_cases h2 : fin > ci
            · simp [checkCitas, parseHME, hx, hxi, h1, h2, Bind.bind, Except.bind]
            · simp only [checkCitas, parseHME, hx, hxi, Bind.bind, Except.bind]
              rw [if_pos h1, if_neg h2]
              exact ih c hmem a b ha hb hov1 hov2
        · simp only [checkCitas, parseHME, hx, Bind.bind, Except.bind]
          rw [if_neg h1]
          exact ih c hmem a b ha hb hov1 hov2

theorem checkCitas_parse_total (ini fin : Nat) :
    ∀ l : List Cita,
      (∀ c ∈ l, (parseHM c.hora_inicio).isSome ∧ (parseHM c.hora_fin).isSome) →
      checkCitas ini fin l = Except.ok none ∨
        ∃ msg, checkCitas ini fin l = Except.ok (some msg) := by
  intro l
  induction l with
  | nil => intro _; left; rfl
  | cons x rest ih =>
    intro hp
    obtain ⟨hi, hf⟩ := hp x (List.mem_cons_self x rest)
    obtain ⟨ci, hci⟩ := Option.isSome_iff_exists.mp hi
    obtain ⟨cf, hcf⟩ := Option.isSome_iff_exists.mp hf
    have hrest := ih (fun c hc => hp c (List.mem_cons_of_mem x hc))
    by_cases h1 : ini < cf
    · by_cases h2 : fin > ci
      · right
        refine ⟨"Ocupado (" ++ x.hora_inicio ++ "-" ++ x.hora_fin ++ ")", ?_⟩
        simp only [checkCitas, parseHME, hcf, hci, Bind.bind, Except.bind]
        rw [if_pos h1, if_pos h2]
      · have : checkCitas ini fin (x :: rest) = checkCitas ini fin rest := by
          simp only [checkCitas, parseHME, hcf, hci, Bind.bind, Except.bind]
          rw [if_pos h1, if_neg h2]
        rw [this]
        exact hrest
    · have : checkCitas ini fin (x :: rest) = checkCitas ini fin rest := by
        simp only [checkCitas, parseHME, hcf, Bind.bind, Except.bind]
        rw [if_neg h1]
      rw [this]
      exact hrest

theorem checkCitas_none_iff (ini fin : Nat) :
    ∀ l : List Cita,
      (∀ c ∈ l, (parseHM c.hora_inicio).isSome ∧ (parseHM c.hora_fin).isSome) →
      (checkCitas ini fin l = Except.ok none ↔
        ∀ c ∈ l, ∀ a b, parseHM c.hora_inicio = some a →
          parseHM c.hora_fin = some b → ¬(ini < b ∧ fin > a)) := by
  intro l
  induction l with
  | nil => intro _; simp [checkCitas]
  | cons x rest ih =>
    intro hp
    obtain ⟨hi, hf⟩ := hp x (List.mem_cons_self x rest)
    obtain ⟨ci, hci⟩ := Option.isSome_iff_exists.mp hi
    obtain ⟨cf, hcf⟩ := Option.isSome_iff_exists.mp hf
    have hrest := ih (fun c hc => hp c (List.mem_cons_of_mem x hc))
    by_cases h1 : ini < cf
    · by_cases h2 : fin > ci
      · have hne : checkCitas ini fin (x :: rest) =
            Except.ok (some ("Ocupado (" ++ x.hora_inicio ++ "-" ++ x.hora_fin ++ ")")) := by
          simp only [checkCitas, parseHME, hcf, hci, Bind.bind, Except.bind]
          rw [if_pos h1, if_pos h2]
        rw [hne]
        constructor
        · intro h; simp at h
        · intro h
          exact absurd ⟨h1, h2⟩ (h x (List.mem_cons_self x rest) ci cf hci hcf)
      · have heq : checkCitas ini fin (x :: rest) = checkCitas ini fin rest := by
          simp only [checkCitas, parseHME, hcf, hci, Bind.bind, Except.bind]
          rw [if_pos h1, if_neg h2]
        rw [heq, hrest]
        constructor
        · intro h c hc a b ha hb
          rcases List.mem_cons.mp hc with rfl | hmem
          · rw [ha] at hci; rw [hb] at hcf
            injection hci with e1; injection hcf with e2
            subst e1; subst e2
            rintro ⟨hx1, hx2⟩
            exact h2 hx2
          · exact h c hmem a b ha hb
        · intro h c hc a b ha hb
          exact h c (List.mem_cons_of_mem x hc) a b ha hb
    · have heq : checkCitas ini fin (x :: rest) = checkCitas ini fin rest := by
        simp only [checkCitas, parseHME, hcf, Bind.bind, Except.bind]
        rw [if_neg h1]
      rw [heq, hrest]
      constructor
      · intro h c hc a b ha hb
        rcases List.mem_cons.mp hc with rfl | hmem
        · rw [hb] at hcf
          injection hcf with e2
          subst e2
          rintro ⟨hx1, hx2⟩
          exact h1 hx1
        · exact h c hmem a b ha hb
      · intro h c hc a b ha hb
        exact h c (List.mem_cons_of_mem x hc) a b ha hb

theorem checkBloqueos_not_none (ini fin : Nat) :
    ∀ (l : List Bloqueo) (bq : Bloqueo), bq ∈ l →
      ∀ a b, parseHM bq.hora_inicio = some a → parseHM bq.hora_fin = some b →
      ini < b → fin > a →
      checkBloqueos ini fin l ≠ Except.ok none := by
  intro l
  induction l with
  | nil => intro bq hc; simp at hc
  | cons x rest ih =>
    intro bq hc a b ha hb hov1 hov2
    rcases List.mem_cons.mp hc with rfl | hmem
    · simp only [checkBloqueos, parseHME, hb, ha, Bind.bind, Except.bind]
      rw [if_pos hov1, if_pos hov2]
      simp
    · cases hx : parseHM x.hora_fin with
      | none => simp [checkBloqueos, parseHME, hx, Bind.bind, Except.bind]
      | some cf =>
        by_cases h1 : ini < cf
        · cases hxi : parseHM x.hora_inicio with
          | none => simp [checkBloqueos, parseHME, hx, hxi, h1, Bind.bind, Except.bind]
          | some ci =>
            by_cases h2 : fin > ci
            · simp [checkBloqueos, parseHME, hx, hxi, h1, h2, Bind.bind, Except.bind]
            · simp only [checkBloqueos, parseHME, hx, hxi, Bind.bind, Except.bind]
              rw [if_pos h1, if_neg h2]
              exact ih bq hmem a b ha hb hov1 hov2
        · simp only [checkBloqueos, parseHME, hx, Bind.bind, Except.bind]
          rw [if_neg h1]
          exact ih bq hmem a b ha hb hov1 hov2

theorem checkBloqueos_parse_total (ini fin : Nat) :
    ∀ l : List Bloqueo,
      (∀ bq ∈ l, (parseHM bq.hora_inicio).isSome ∧ (parseHM bq.hora_fin).isSome) →
      checkBloqueos ini fin l = Except.ok none ∨
        ∃ msg, checkBloqueos ini fin l = Except.ok (some msg) := by
  intro l
  induction l with
  | nil => intro _; left; rfl
  | cons x rest ih =>
    intro hp
    obtain ⟨hi, hf⟩ := hp x (List.mem_cons_self x rest)
    obtain ⟨ci, hci⟩ := Option.isSome_iff_exists.mp hi
    obtain ⟨cf, hcf⟩ := Option.isSome_iff_exists.mp hf
    have hrest := ih (fun c hc => hp c (List.mem_cons_of_mem x hc))
    by_cases h1 : ini < cf
    · by_cases h2 : fin > ci
      · right
        refine ⟨"BLOQUEADO: " ++ x.motivo, ?_⟩
        simp only [checkBloqueos, parseHME, hcf, hci, Bind.bind, Except.bind]
        rw [if_pos h1, if_pos h2]
      · have : checkBloqueos ini fin (x :: rest) = checkBloqueos ini fin rest := by
          simp only [checkBloqueos, parseHME, hcf, hci, Bind.bind, Except.bind]
          rw [if_pos h1, if_neg h2]
        rw [this]
        exact hrest
    · have : checkBloqueos ini fin (x :: rest) = checkBloqueos ini fin rest := by
        simp only [checkBloqueos, parseHME, hcf, Bind.bind, Except.bind]
        rw [if_neg h1]
      rw [this]
      exact hrest

theorem checkBloqueos_none_iff (ini fin : Nat) :
    ∀ l : List Bloqueo,
      (∀ bq ∈ l, (parseHM bq.hora_inicio).isSome ∧ (parseHM bq.hora_fin).isSome) →
      (checkBloqueos ini fin l = Except.ok none ↔
        ∀ bq ∈ l, ∀ a b, parseHM bq.hora_inicio = some a →
          parseHM bq.hora_fin = some b → ¬(ini < b ∧ fin > a)) := by
  intro l
  induction l with
  | nil => intro _; simp [checkBloqueos]
  | cons x rest ih =>
    intro hp
    obtain ⟨hi, hf⟩ := hp x (List.mem_cons_self x rest)
    obtain ⟨ci, hci⟩ := Option.isSome_iff_exists.mp hi
    obtain ⟨cf, hcf⟩ := Option.isSome_iff_exists.mp hf
    have hrest := ih (fun c hc => hp c (List.mem_cons_of_mem x hc))
    by_cases h1 : ini < cf
    · by_cases h2 : fin > ci
      · have hne : checkBloqueos ini fin (x :: rest) =
            Except.ok (some ("BLOQUEADO: " ++ x.motivo)) := by
          simp only [checkBloqueos, parseHME, hcf, hci, Bind.bind, Except.bind]
          rw [if_pos h1, if_pos h2]
        rw [hne]
        constructor
        · intro h; simp at h
        · intro h
          exact absurd ⟨h1, h2⟩ (h x (List.mem_cons_self x rest) ci cf hci hcf)
      · have heq : checkBloqueos ini fin (x :: rest) = checkBloqueos ini fin rest := by
          simp only [checkBloqueos, parseHME, hcf, hci, Bind.bind, Except.bind]
          rw [if_pos h1, if_neg h2]
        rw [heq, hrest]
        constructor
        · intro h c hc a b ha hb
          rcases List.mem_cons.mp hc with rfl | hmem
          · rw [ha] at hci; rw [hb] at hcf
            injection hci with e1; injection hcf with e2
            subst e1; subst e2
            rintro ⟨hx1, hx2⟩
            exact h2 hx2
          · exact h c hmem a b ha hb
        · intro h c hc a b ha hb
          exact h c (List.mem_cons_of_mem x hc) a b ha hb
    · have heq : checkBloqueos ini fin (x :: rest) = checkBloqueos ini fin rest := by
        simp only [checkBloqueos, parseHME, hcf, Bind.bind, Except.bind]
        rw [if_neg h1]
      rw [heq, hrest]
      constructor
      · intro h c hc a b ha hb
        rcases List.mem_cons.mp hc with rfl | hmem
        · rw [hb] at hcf
          injection hcf with e2
          subst e2
          rintro ⟨hx1, hx2⟩
          exact h1 hx1
        · exact h c hmem a b ha hb
      · intro h c hc a b ha hb
        exact h c (List.mem_cons_of_mem x hc) a b ha hb

theorem validar_choque_eq (db : DB) (fecha_ui hora_ini pro_nombre : String)
    (duracion ini pid : Nat)
    (hIni : parseHM hora_ini = some ini)
    (hPid : lookupEmpleadoId db pro_nombre = some pid) :
    validar_choque db fecha_ui hora_ini duracion pro_nombre =
      match checkCitas ini (ini + duracion)
          (citasRelevantes db (f_to_iso fecha_ui) pid) with
      | Except.error e => (true, e)
      | Except.ok (some msg) => (true, msg)
      | Except.ok none =>
        match checkBloqueos ini (ini + duracion)
            (bloqueosRelevantes db (f_to_iso fecha_ui) pid) with
        | Except.error e => (true, e)
        | Except.ok (some msg) => (true, msg)
        | Except.ok none => (false, fmtHM ((ini + duracion) % 1440)) := by
  simp only [validar_choque, validarChoqueE, parseHME, hIni, hPid, Bind.bind,
    Except.bind]
  cases hc : checkCitas ini (ini + duracion)
      (citasRelevantes db (f_to_iso fecha_ui) pid) with
  | error e => rfl
  | ok o =>
    cases o with
    | some msg => rfl
    | none =>
      cases hb : checkBloqueos ini (ini + duracion)
          (bloqueosRelevantes db (f_to_iso fecha_ui) pid) with
      | error e => rfl
      | ok o2 => cases o2 <;> rfl

theorem checkCitas_some_exists (ini fin : Nat) (l : List Cita) (msg : String)
    (hp : ∀ c ∈ l, (parseHM c.hora_inicio).isSome ∧ (parseHM c.hora_fin).isSome)
    (hsome : checkCitas ini fin l = Except.ok (some msg)) :
    ∃ c ∈ l, ∃ a b, parseHM c.hora_inicio = some a ∧
      parseHM c.hora_fin = some b ∧ ini < b ∧ fin > a := by
  by_contra hno
  have hall : ∀ c ∈ l, ∀ a b, parseHM c.hora_inicio = some a →
      parseHM c.hora_fin = some b → ¬(ini < b ∧ fin > a) := by
    rintro c hc a b ha hb ⟨h1, h2⟩
    exact hno ⟨c, hc, a, b, ha, hb, h1, h2⟩
  rw [(checkCitas_none_iff ini fin l hp).mpr hall] at hsome
  simp at hsome

theorem checkBloqueos_some_exists (ini fin : Nat) (l : List Bloqueo) (msg : String)
    (hp : ∀ bq ∈ l, (parseHM bq.hora_inicio).isSome ∧ (parseHM bq.hora_fin).isSome)
    (hsome : checkBloqueos ini fin l = Except.ok (some msg)) :
    ∃ bq ∈ l, ∃ a b, parseHM bq.hora_inicio = some a ∧
      parseHM bq.hora_fin = some b ∧ ini < b ∧ fin > a := by
  by_contra hno
  have hall : ∀ bq ∈ l, ∀ a b, parseHM bq.hora_inicio = some a →
      parseHM bq.hora_fin = some b → ¬(ini < b ∧ fin > a) := by
    rintro c hc a b ha hb ⟨h1, h2⟩
    exact hno ⟨c, hc, a, b, ha, hb, h1, h2⟩
  rw [(checkBloqueos_none_iff ini fin l hp).mpr hall] at hsome
  simp at hsome

/-- C2: with a parseable start time, a matched professional and parseable
stored times, `validar_choque` reports a conflict exactly when some
non-cancelled appointment or applicable block `[a, b)` of that
(professional, date) satisfies `start < b` and `start + duration > a`; in
particular touching endpoints are not conflicts. -/
theorem validar_choque_conflict_iff (db : DB)
    (fecha_ui hora_ini pro_nombre : String) (duracion ini pid : Nat)
    (hIni : parseHM hora_ini = some ini)
    (hPid : lookupEmpleadoId db pro_nombre = some pid)
    (hC : ∀ c ∈ citasRelevantes db (f_to_iso fecha_ui) pid,
      (parseHM c.hora_inicio).isSome ∧ (parseHM c.hora_fin).isSome)
    (hB : ∀ bq ∈ bloqueosRelevantes db (f_to_iso fecha_ui) pid,
      (parseHM bq.hora_inicio).isSome ∧ (parseHM bq.hora_fin).isSome) :
    (validar_choque db fecha_ui hora_ini duracion pro_nombre).1 = true ↔
      ((∃ c ∈ citasRelevantes db (f_to_iso fecha_ui) pid, ∃ a b,
          parseHM c.hora_inicio = some a ∧ parseHM c.hora_fin = some b ∧
          ini < b ∧ ini + duracion > a) ∨
       (∃ bq ∈ bloqueosRelevantes db (f_to_iso fecha_ui) pid, ∃ a b,
          parseHM bq.hora_inicio = some a ∧ parseHM bq.hora_fin = some b ∧
          ini < b ∧ ini + duracion > a)) := by
  rw [validar_choque_eq db fecha_ui hora_ini pro_nombre duracion ini pid hIni hPid]
  rcases checkCitas_parse_total ini (ini + duracion) _ hC with hc | ⟨msg, hc⟩
  · have hnoc : ¬ (∃ c ∈ citasRelevantes db (f_to_iso fecha_ui) pid, ∃ a b,
        parseHM c.hora_inicio = some a ∧ parseHM c.hora_fin = some b ∧
        ini < b ∧ ini + duracion > a) := by
      rintro ⟨c, hmem, a, b, ha, hb, h1, h2⟩
      exact absurd ⟨h1, h2⟩
        ((checkCitas_none_iff ini (ini + duracion) _ hC).mp hc c hmem a b ha hb)
    rw [hc]
    rcases checkBloqueos_parse_total ini (ini + duracion) _ hB with hb | ⟨msg2, hb⟩
    · have hnob : ¬ (∃ bq ∈ bloqueosRelevantes db (f_to_iso fecha_ui) pid, ∃ a b,
          parseHM bq.hora_inicio = some a ∧ parseHM bq.hora_fin = some b ∧
          ini < b ∧ ini + duracion > a) := by
        rintro ⟨c, hmem, a, b, ha, hb2, h1, h2⟩
        exact absurd ⟨h1, h2⟩
          ((checkBloqueos_none_iff ini (ini + duracion) _ hB).mp hb c hmem a b ha hb2)
      rw [hb]
      constructor
      · intro h; simp at h
      · intro h
        rcases h with h | h
        · exact absurd h hnoc
        · exact absurd h hnob
    · rw [hb]
      simp only [true_iff]
      exact Or.inr (checkBloqueos_some_exists ini (ini + duracion) _ msg2 hB hb)
  · rw [hc]
    simp only [true_iff]
    exact Or.inl (checkCitas_some_exists ini (ini + duracion) _ msg hC hc)

/-- Witness for C2: with an existing booking [09:00,10:00), requesting
[10:00,11:00) touches but does not conflict, while [09:30,10:30) does. -/
theorem validar_choque_conflict_iff_witness :
    ((validar_choque dbConCita "21-12-25" "10:00" 60 "Andrea").1 = true ↔
      ((∃ c ∈ citasRelevantes dbConCita (f_to_iso "21-12-25") 1, ∃ a b,
          parseHM c.hora_inicio = some a ∧ parseHM c.hora_fin = some b ∧
          600 < b ∧ 600 + 60 > a) ∨
       (∃ bq ∈ bloqueosRelevantes dbConCita (f_to_iso "21-12-25") 1, ∃ a b,
          parseHM bq.hora_inicio = some a ∧ parseHM bq.hora_fin = some b ∧
          600 < b ∧ 600 + 60 > a))) ∧
    validar_choque dbConCita "21-12-25" "10:00" 60 "Andrea" = (false, "11:00") ∧
    (validar_choque dbConCita "21-12-25" "09:30" 60 "Andrea").1 = true :=
  ⟨validar_choque_conflict_iff dbConCita "21-12-25" "10:00" "Andrea" 60 600 1
      (by decide) (by decide) (by decide) (by decide),
   by decide, by decide⟩

/-- C9: an appointment blocks its own reschedule. Requesting a new start on
the appointment's current professional and date whose window overlaps the
appointment's own `[hora_inicio, hora_fin)` makes `reagendar_cita` fail (the
conflict scan includes the appointment itself) and leaves the state — in
particular every field of the appointment — untouched. -/
theorem reagendar_self_block (db : DB) (id_cita : Nat)
    (fecha_ui hora pro : String) (c : Cita) (s : Servicio) (ini a b : Nat)
    (hc : db.citas.find? (fun x => x.id == id_cita) = some c)
    (hs : db.servicios.find? (fun x => x.id == c.servicio_id) = some s)
    (hest : c.estado ≠ "Cancelado")
    (hpid : lookupEmpleadoId db pro = some c.profesional_id)
    (hfecha : f_to_iso fecha_ui = c.fecha)
    (hini : parseHM hora = some ini)
    (ha : parseHM c.hora_inicio = some a)
    (hb : parseHM c.hora_fin = some b)
    (hov1 : ini < b) (hov2 : ini + s.duracion_min > a) :
    (reagendar_cita db id_cita fecha_ui hora pro).1 = db ∧
    (reagendar_cita db id_cita fecha_ui hora pro).2.1 = false := by
  have hmem : c ∈ citasRelevantes db (f_to_iso fecha_ui) c.profesional_id := by
    refine List.mem_filter.mpr ⟨List.mem_of_find?_eq_some hc, ?_⟩
    simp [hfecha, hest]
  have hne := checkCitas_not_none ini (ini + s.duracion_min)
    (citasRelevantes db (f_to_iso fecha_ui) c.profesional_id) c hmem a b ha hb hov1 hov2
  have hvt : (validar_choque db fecha_ui hora s.duracion_min pro).1 = true := by
    rw [validar_choque_eq db fecha_ui hora pro s.duracion_min ini c.profesional_id hini hpid]
    cases hcc : checkCitas ini (ini + s.duracion_min)
        (citasRelevantes db (f_to_iso fecha_ui) c.profesional_id) with
    | error e => rfl
    | ok o =>
      cases o with
      | some msg => rfl
      | none => exact absurd hcc hne
  have hdur : (db.citas.find? (fun x => x.id == id_cita)).bind
      (fun x => (db.servicios.find? (fun y => y.id == x.servicio_id)).map
        (·.duracion_min)) = some s.duracion_min := by
    rw [hc]
    simp [hs]
  rcases hv : validar_choque db fecha_ui hora s.duracion_min pro with ⟨bv, msg⟩
  rw [hv] at hvt
  simp at hvt
  subst hvt
  constructor <;> simp [reagendar_cita, hdur, hv]

/-- Witness for C9: rescheduling the 09:00-10:00 appointment to 09:30 on the
same day with the same professional fails and changes nothing. -/
theorem reagendar_self_block_witness :
    (reagendar_cita dbConCita 1 "21-12-25" "09:30" "Andrea").1 = dbConCita ∧
    (reagendar_cita dbConCita 1 "21-12-25" "09:30" "Andrea").2.1 = false :=
  reagendar_self_block dbConCita 1 "21-12-25" "09:30" "Andrea" cita0900 sCejas
    570 540 600 (by decide) (by decide) (by decide) (by decide) (by decide)
    (by decide) (by decide) (by decide) (by decide) (by decide)

theorem countP_le_one_unique {α : Type} (p : α → Bool) :
    ∀ l : List α, l.countP p ≤ 1 →
      ∀ a ∈ l, ∀ b ∈ l, p a = true → p b = true → a = b := by
  intro l
  induction l with
  | nil => intro _ a ha; simp at ha
  | cons x rest ih =>
    intro hc a ha b hb hpa hpb
    rw [List.countP_cons] at hc
    rcases List.mem_cons.mp ha with rfl | ha2
    · rcases List.mem_cons.mp hb with rfl | hb2
      · rfl
      · exfalso
        have hpos : 0 < rest.countP p := List.countP_pos_iff.mpr ⟨b, hb2, hpb⟩
        rw [if_pos hpa] at hc
        omega
    · rcases List.mem_cons.mp hb with rfl | hb2
      · exfalso
        have hpos : 0 < rest.countP p := List.countP_pos_iff.mpr ⟨a, ha2, hpa⟩
        rw [if_pos hpb] at hc
        omega
      · have hr : rest.countP p ≤ 1 := by omega
        exact ih hr a ha2 b hb2 hpa hpb

theorem insertByFst_perm (p : Nat × Nat) :
    ∀ l : List (Nat × Nat), (insertByFst p l).Perm (p :: l) := by
  intro l
  induction l with
  | nil => simp [insertByFst]
  | cons q rest ih =>
    rw [insertByFst]
    by_cases h : p.1 ≤ q.1
    · rw [if_pos h]
    · rw [if_neg h]
      exact (ih.cons q).trans (List.Perm.swap p q rest)

theorem sortByFst_perm : ∀ l : List (Nat × Nat), (sortByFst l).Perm l := by
  intro l
  induction l with
  | nil => simp [sortByFst]
  | cons x rest ih =>
    have heq : sortByFst (x :: rest) = insertByFst x (sortByFst rest) := rfl
    rw [heq]
    exact (insertByFst_perm x (sortByFst rest)).trans (ih.cons x)

theorem realizar_abono_prof_eq (db : DB) (idr m : Nat) (met hoy hora : String)
    (pr0 : Prestamo) (hfind : db.prestamos.find? (fun pr => pr.id == idr) = some pr0) :
    (realizar_abono_deuda db TipoDeuda.PROFESIONAL idr m met hoy hora).1 =
      { db with
          abonos_prestamos := db.abonos_prestamos ++
            [{ id := db.next_abono_id, prestamo_id := idr, valor := m,
               fecha := hoy, descripcion := "Abono Voluntario", metodo := met }],
          prestamos := db.prestamos.map (fun x =>
            if x.id == idr then
              { x with monto := pr0.monto - m,
                       estado := if pr0.monto ≤ m then "Pagado" else "Pendiente" }
            else x),
          next_abono_id := db.next_abono_id + 1 } := by
  simp [realizar_abono_deuda, hfind]

theorem LoanInv_map_snoc (M lid : Nat) (db db2 : DB) (pr0 : Prestamo)
    (idr m : Nat) (ab : AbonoPrestamo)
    (hpr0mem : pr0 ∈ db.prestamos) (hpr0id : pr0.id = idr)
    (hp : db2.prestamos = db.prestamos.map (fun x =>
      if x.id == idr then
        { x with monto := pr0.monto - m,
                 estado := if pr0.monto ≤ m then "Pagado" else "Pendiente" }
      else x))
    (ha : db2.abonos_prestamos = db.abonos_prestamos ++ [ab])
    (hab1 : ab.prestamo_id = idr) (hab2 : ab.valor = m)
    (hInv : LoanInv M lid db) : LoanInv M lid db2 := by
  obtain ⟨hcount, hrows⟩ := hInv
  have hS : sumInstallments db2 lid =
      sumInstallments db lid + (if idr = lid then m else 0) := by
    simp only [sumInstallments, ha, List.filter_append, List.map_append,
      List.sum_append]
    by_cases h : idr = lid
    · subst h
      simp [hab1, hab2]
    · have : (ab.prestamo_id == lid) = false := by
        simp [hab1]
        omega
      simp [List.filter, this, h]
  have hcomp : ((fun (x : Prestamo) => x.id == lid) ∘ (fun x =>
      if x.id == idr then
        { x with monto := pr0.monto - m,
                 estado := if pr0.monto ≤ m then "Pagado" else "Pendiente" }
      else x)) = fun (x : Prestamo) => x.id == lid := by
    funext x
    by_cases h : x.id = idr <;> simp [h]
  constructor
  · rw [hp, List.countP_map, hcomp]
    exact hcount
  · intro pr' hmem' hid'
    rw [hp] at hmem'
    obtain ⟨x, hx, rfl⟩ := List.mem_map.mp hmem'
    by_cases hxi : (x.id == idr) = true
    · have hxid : x.id = idr := by simpa using hxi
      have hlid : idr = lid := by
        rw [← hxid]
        simpa [hxi] using hid'
      obtain ⟨hm0, hiff0, hst0⟩ := hrows pr0 hpr0mem (by rw [hpr0id]; exact hlid)
      rw [hS, if_pos hlid]
      refine ⟨?_, ?_, ?_⟩
      · simp only [hxi, if_pos rfl, if_true]
        rw [hm0]
        omega
      · simp only [hxi, if_true]
        by_cases hle : pr0.monto ≤ m
        · simp [hle, Nat.sub_eq_zero_of_le hle]
        · have hgt : 0 < pr0.monto - m := by omega
          simp [hle]
          omega
      · simp only [hxi, if_true]
        by_cases hle : pr0.monto ≤ m <;> simp [hle]
    · simp only [hxi, if_false] at hid' ⊢
      have hxid : x.id = lid := by simpa [hxi] using hid'
      have hne : idr ≠ lid := by
        rw [← hxid]
        intro hcontra
        exact absurd (by simp [hcontra] : (x.id == idr) = true) (by simp [hxi])
      obtain ⟨hm0, hiff0, hst0⟩ := hrows x hx hxid
      rw [hS, if_neg hne]
      exact ⟨by simpa using hm0, hiff0, hst0⟩

theorem LoanInv_abono (M lid : Nat) (db : DB) (idr m : Nat) (met hoy hora : String)
    (hInv : LoanInv M lid db) :
    LoanInv M lid (realizar_abono_deuda db TipoDeuda.PROFESIONAL idr m met hoy hora).1 := by
  cases hfind : db.prestamos.find? (fun pr => pr.id == idr) with
  | none =>
    have h1 : (realizar_abono_deuda db TipoDeuda.PROFESIONAL idr m met hoy hora).1 = db := by
      simp [realizar_abono_deuda, hfind]
    rw [h1]
    exact hInv
  | some pr0 =>
    rw [realizar_abono_prof_eq db idr m met hoy hora pr0 hfind]
    exact LoanInv_map_snoc M lid db _ pr0 idr m
      { id := db.next_abono_id, prestamo_id := idr, valor := m, fecha := hoy,
        descripcion := "Abono Voluntario", metodo := met }
      (List.mem_of_find?_eq_some hfind) (by simpa using List.find?_some hfind)
      rfl rfl rfl rfl hInv

theorem nominaLoop_zero (hoy : String) (db : DB) :
    ∀ pend : List (Nat × Nat), nominaLoop hoy db 0 pend = db := by
  intro pend
  cases pend with
  | nil => rfl
  | cons p rest =>
    cases p with
    | mk i m => simp [nominaLoop]

theorem nominaLoop_cons_full (hoy : String) (db : DB) (rem i m : Nat)
    (rest : List (Nat × Nat)) (hrem : rem ≠ 0) (hle : m ≤ rem) :
    nominaLoop hoy db rem ((i, m) :: rest) =
      nominaLoop hoy
        { db with
            prestamos := db.prestamos.map (fun pr =>
              if pr.id == i then { pr with estado := "Pagado", monto := 0 } else pr),
            abonos_prestamos := db.abonos_prestamos ++
              [{ id := db.next_abono_id, prestamo_id := i, valor := m,
                 fecha := hoy, descripcion := "Deducción Nómina", metodo := "" }],
            next_abono_id := db.next_abono_id + 1 }
        (rem - m) rest := by
  rw [nominaLoop]
  simp [hrem, hle]

theorem nominaLoop_cons_part (hoy : String) (db : DB) (rem i m : Nat)
    (rest : List (Nat × Nat)) (hrem : rem ≠ 0) (hgt : ¬ m ≤ rem) :
    nominaLoop hoy db rem ((i, m) :: rest) =
      { db with
          prestamos := db.prestamos.map (fun pr =>
            if pr.id == i then { pr with monto := m - rem } else pr),
          abonos_prestamos := db.abonos_prestamos ++
            [{ id := db.next_abono_id, prestamo_id := i, valor := rem,
               fecha := hoy, descripcion := "Deducción Nómina", metodo := "" }],
          next_abono_id := db.next_abono_id + 1 } := by
  rw [nominaLoop]
  rw [if_neg hrem, if_neg hgt]
  exact nominaLoop_zero hoy _ rest

theorem LoanInv_other (M lid : Nat) (db db2 : DB) (f : Prestamo → Prestamo)
    (ab : AbonoPrestamo)
    (hf_id : ∀ x, (f x).id = x.id)
    (hf_fix : ∀ x, x.id = lid → f x = x)
    (hp : db2.prestamos = db.prestamos.map f)
    (ha : db2.abonos_prestamos = db.abonos_prestamos ++ [ab])
    (hab : ab.prestamo_id ≠ lid)
    (hInv : LoanInv M lid db) : LoanInv M lid db2 := by
  obtain ⟨hcount, hrows⟩ := hInv
  have hS : sumInstallments db2 lid = sumInstallments db lid := by
    simp only [sumInstallments, ha, List.filter_append, List.map_append,
      List.sum_append]
    have hb : (ab.prestamo_id == lid) = false := by
      simp [hab]
    simp [List.filter, hb]
  have hcomp : ((fun (x : Prestamo) => x.id == lid) ∘ f) =
      fun (x : Prestamo) => x.id == lid := by
    funext x
    simp [hf_id]
  constructor
  · rw [hp, List.countP_map, hcomp]
    exact hcount
  · intro pr' hmem' hid'
    rw [hp] at hmem'
    obtain ⟨x, hx, rfl⟩ := List.mem_map.mp hmem'
    have hxid : x.id = lid := by rw [← hf_id x]; exact hid'
    rw [hf_fix x hxid]
    rw [hS]
    exact hrows x hx hxid

theorem LoanInv_nomina_full (M lid : Nat) (db : DB) (i m : Nat) (hoy : String)
    (hex : ∃ pr ∈ db.prestamos, pr.id = i)
    (hcorr : i = lid → ∀ pr ∈ db.prestamos, pr.id = lid →
      pr.monto = m ∧ pr.estado = "Pendiente")
    (hInv : LoanInv M lid db) :
    LoanInv M lid
      { db with
          prestamos := db.prestamos.map (fun pr =>
            if pr.id == i then { pr with estado := "Pagado", monto := 0 } else pr),
          abonos_prestamos := db.abonos_prestamos ++
            [{ id := db.next_abono_id, prestamo_id := i, valor := m,
               fecha := hoy, descripcion := "Deducción Nómina", metodo := "" }],
          next_abono_id := db.next_abono_id + 1 } := by
  by_cases hi : i = lid
  · subst hi
    obtain ⟨pr0, hpr0mem, hpr0id⟩ := hex
    obtain ⟨hm0, hest0⟩ := hcorr rfl pr0 hpr0mem hpr0id
    apply LoanInv_map_snoc M i db _ pr0 i m
      { id := db.next_abono_id, prestamo_id := i, valor := m, fecha := hoy,
        descripcion := "Deducción Nómina", metodo := "" }
      hpr0mem hpr0id ?_ rfl rfl rfl hInv
    have hfun : (fun (x : Prestamo) =>
        if x.id == i then { x with estado := "Pagado", monto := 0 } else x) =
        (fun (x : Prestamo) =>
          if x.id == i then
            { x with monto := pr0.monto - m,
                     estado := if pr0.monto ≤ m then "Pagado" else "Pendiente" }
          else x) := by
      funext x
      by_cases hx : x.id = i <;> simp [hx, hm0]
    exact congrArg (db.prestamos.map ·) hfun
  · apply LoanInv_other M lid db _
      (fun pr => if pr.id == i then { pr with estado := "Pagado", monto := 0 } else pr)
      { id := db.next_abono_id, prestamo_id := i, valor := m, fecha := hoy,
        descripcion := "Deducción Nómina", metodo := "" }
      ?_ ?_ rfl rfl ?_ hInv
    · intro x
      by_cases hx : x.id = i <;> simp [hx]
    · intro x hxl
      have : ¬ (x.id == i) = true := by simp [hxl, hi, Ne.symm]
      simp [this]
    · simpa using hi

theorem LoanInv_nomina_part (M lid : Nat) (db : DB) (i m rem : Nat)
    (hoy : String)
    (hex : ∃ pr ∈ db.prestamos, pr.id = i)
    (hcorr : i = lid → ∀ pr ∈ db.prestamos, pr.id = lid →
      pr.monto = m ∧ pr.estado = "Pendiente")
    (hgt : rem < m)
    (hInv : LoanInv M lid db) :
    LoanInv M lid
      { db with
          prestamos := db.prestamos.map (fun pr =>
            if pr.id == i then { pr with monto := m - rem } else pr),
          abonos_prestamos := db.abonos_prestamos ++
            [{ id := db.next_abono_id, prestamo_id := i, valor := rem,
               fecha := hoy, descripcion := "Deducción Nómina", metodo := "" }],
          next_abono_id := db.next_abono_id + 1 } := by
  by_cases hi : i = lid
  · subst hi
    obtain ⟨pr0, hpr0mem, hpr0id⟩ := hex
    obtain ⟨hm0, hest0⟩ := hcorr rfl pr0 hpr0mem hpr0id
    apply LoanInv_map_snoc M i db _ pr0 i rem
      { id := db.next_abono_id, prestamo_id := i, valor := rem, fecha := hoy,
        descripcion := "Deducción Nómina", metodo := "" }
      hpr0mem hpr0id ?_ rfl rfl rfl hInv
    have hnle : ¬ m ≤ rem := by omega
    apply List.map_congr_left
    intro x hx
    by_cases hxi : x.id = i
    · obtain ⟨hxm, hxe⟩ := hcorr rfl x hx hxi
      simp [hxi, hm0, hnle, hxe]
    · simp [hxi]
  · apply LoanInv_other M lid db _
      (fun pr => if pr.id == i then { pr with monto := m - rem } else pr)
      { id := db.next_abono_id, prestamo_id := i, valor := rem, fecha := hoy,
        descripcion := "Deducción Nómina", metodo := "" }
      ?_ ?_ rfl rfl ?_ hInv
    · intro x
      by_cases hx : x.id = i <;> simp [hx]
    · intro x hxl
      have : ¬ (x.id == i) = true := by simp [hxl, hi, Ne.symm]
      simp [this]
    · simpa using hi

theorem nominaLoop_LoanInv (M lid : Nat) (hoy : String) :
    ∀ (pend : List (Nat × Nat)) (db : DB) (rem : Nat),
      LoanInv M lid db →
      (∀ p ∈ pend, p.1 = lid → ∀ pr ∈ db.prestamos, pr.id = lid →
        pr.monto = p.2 ∧ pr.estado = "Pendiente") →
      (∀ p ∈ pend, ∃ pr ∈ db.prestamos, pr.id = p.1) →
      pend.countP (fun p => p.1 == lid) ≤ 1 →
      LoanInv M lid (nominaLoop hoy db rem pend) := by
  intro pend
  induction pend with
  | nil => intro db rem hInv _ _ _; exact hInv
  | cons hd rest ih =>
    intro db rem hInv hcorr hex hcnt
    obtain ⟨i, m⟩ := hd
    by_cases hrem : rem = 0
    · subst hrem
      rw [nominaLoop_zero]
      exact hInv
    · rw [List.countP_cons] at hcnt
      have hexHd := hex (i, m) (List.mem_cons_self _ _)
      have hcorrHd : i = lid → ∀ pr ∈ db.prestamos, pr.id = lid →
          pr.monto = m ∧ pr.estado = "Pendiente" :=
        fun hi => hcorr (i, m) (List.mem_cons_self _ _) hi
      by_cases hle : m ≤ rem
      · rw [nominaLoop_cons_full hoy db rem i m rest hrem hle]
        have hInv2 := LoanInv_nomina_full M lid db i m hoy hexHd hcorrHd hInv
        apply ih _ (rem - m) hInv2 ?_ ?_ ?_
        · intro p hp hpl pr' hmem' hid'
          by_cases hi : i = lid
          · exfalso
            have hpos : 0 < rest.countP (fun p => p.1 == lid) :=
              List.countP_pos_iff.mpr ⟨p, hp, by simp [hpl]⟩
            have hhd : (((i, m) : Nat × Nat).1 == lid) = true := by simp [hi]
            rw [if_pos hhd] at hcnt
            omega
          · simp only [List.map_cons] at hmem'
            have hmem2 : pr' ∈ db.prestamos.map (fun pr =>
                if pr.id == i then { pr with estado := "Pagado", monto := 0 }
                else pr) := hmem'
            obtain ⟨x, hx, rfl⟩ := List.mem_map.mp hmem2
            have hxid : x.id = lid := by
              by_cases hxi : x.id = i <;> simpa [hxi] using hid'
            have hxni : ¬ (x.id == i) = true := by
              simp [hxid]
              exact fun hcontra => hi (hcontra ▸ rfl)
            rw [if_neg hxni] at hid' ⊢
            exact hcorr p (List.mem_cons_of_mem _ hp) hpl x hx hxid
        · intro p hp
          obtain ⟨pr, hprmem, hprid⟩ := hex p (List.mem_cons_of_mem _ hp)
          refine ⟨(fun pr =>
            if pr.id == i then { pr with estado := "Pagado", monto := 0 }
            else pr) pr, List.mem_map_of_mem _ hprmem, ?_⟩
          by_cases hpi : pr.id = i <;> simpa [hpi] using hprid
        · omega
      · have hgt : rem < m := by omega
        rw [nominaLoop_cons_part hoy db rem i m rest hrem hle]
        exact LoanInv_nomina_part M lid db i m rem hoy hexHd hcorrHd hgt hInv

theorem nominaGastos_frame (nom hoy : String) :
    ∀ (l : List (String × Nat)) (db : DB),
      (nominaGastos nom hoy db l).prestamos = db.prestamos ∧
      (nominaGastos nom hoy db l).abonos_prestamos = db.abonos_prestamos := by
  intro l
  induction l with
  | nil => intro db; exact ⟨rfl, rfl⟩
  | cons hd rest ih =>
    intro db
    obtain ⟨met, val⟩ := hd
    by_cases hv : val > 0
    · rw [nominaGastos, if_pos hv]
      exact ih _
    · rw [nominaGastos, if_neg hv]
      exact ih db

theorem LoanInv_frame (M lid : Nat) (db db2 : DB)
    (hp : db2.prestamos = db.prestamos)
    (ha : db2.abonos_prestamos = db.abonos_prestamos)
    (hInv : LoanInv M lid db) : LoanInv M lid db2 := by
  obtain ⟨hcount, hrows⟩ := hInv
  have hS : sumInstallments db2 lid = sumInstallments db lid := by
    simp [sumInstallments, ha]
  constructor
  · rw [hp]; exact hcount
  · intro pr hmem hid
    rw [hp] at hmem
    rw [hS]
    exact hrows pr hmem hid

theorem prestamosPendientes_mem (db : DB) (pid : Nat) (p : Nat × Nat)
    (hp : p ∈ prestamosPendientes db pid) :
    ∃ pr ∈ db.prestamos, pr.id = p.1 ∧ pr.monto = p.2 ∧
      pr.profesional_id = pid ∧ pr.estado = "Pendiente" := by
  have hmem : p ∈ (db.prestamos.filter (fun pr =>
      pr.profesional_id == pid && pr.estado == "Pendiente")).map
        (fun pr => (pr.id, pr.monto)) :=
    ((sortByFst_perm _).mem_iff).mp hp
  obtain ⟨pr0, hpr0, heq⟩ := List.mem_map.mp hmem
  obtain ⟨hm1, hm2⟩ := List.mem_filter.mp hpr0
  have hm3 : pr0.profesional_id = pid ∧ pr0.estado = "Pendiente" := by
    simpa using hm2
  refine ⟨pr0, hm1, ?_, ?_, hm3.1, hm3.2⟩
  · rw [← heq]
  · rw [← heq]

theorem prestamosPendientes_countP (db : DB) (pid lid : Nat) :
    (prestamosPendientes db pid).countP (fun p => p.1 == lid) ≤
      db.prestamos.countP (fun pr => pr.id == lid) := by
  unfold prestamosPendientes
  rw [List.Perm.countP_eq _ (sortByFst_perm _), List.countP_map]
  exact List.Sublist.countP_le _ (List.filter_sublist _)

theorem LoanInv_nomina_core (M lid : Nat) (db1 : DB) (ab pid : Nat)
    (lp : List (String × Nat)) (nom hoy : String)
    (hInv1 : LoanInv M lid db1) :
    LoanInv M lid (nominaGastos nom hoy
      (if ab > 0 then nominaLoop hoy db1 ab (prestamosPendientes db1 pid) else db1)
      lp) := by
  refine LoanInv_frame M lid _ _ (nominaGastos_frame nom hoy lp _).1
    (nominaGastos_frame nom hoy lp _).2 ?_
  by_cases hab : ab > 0
  · rw [if_pos hab]
    apply nominaLoop_LoanInv M lid hoy _ _ ab hInv1 ?_ ?_ ?_
    · intro p hp hpl pr hmem hid
      obtain ⟨pr0, hpr0mem, hid0, hm0, _, hest0⟩ := prestamosPendientes_mem db1 pid p hp
      have hpr : pr = pr0 := countP_le_one_unique _ _ hInv1.1 pr hmem pr0 hpr0mem
        (by simp [hid]) (by simp [hid0, hpl])
      rw [hpr]
      exact ⟨hm0, hest0⟩
    · intro p hp
      obtain ⟨pr0, hpr0mem, hid0, _⟩ := prestamosPendientes_mem db1 pid p hp
      exact ⟨pr0, hpr0mem, hid0⟩
    · exact le_trans (prestamosPendientes_countP db1 pid lid) hInv1.1
  · rw [if_neg hab]
    exact hInv1

theorem LoanInv_nomina (M lid : Nat) (db : DB) (ids : List Nat) (ab : Nat)
    (lp : List (String × Nat)) (nom hoy : String)
    (hInv : LoanInv M lid db) :
    LoanInv M lid (pagar_nomina_flexible db ids ab lp nom hoy).1 := by
  cases hpid : lookupEmpleadoId db nom with
  | none =>
    have h1 : (pagar_nomina_flexible db ids ab lp nom hoy).1 = db := by
      simp [pagar_nomina_flexible, hpid]
    rw [h1]
    exact hInv
  | some pid =>
    simp only [pagar_nomina_flexible, hpid]
    exact LoanInv_nomina_core M lid _ ab pid lp nom hoy
      (LoanInv_frame M lid db _ rfl rfl hInv)

theorem LoanInv_crear (M pid : Nat) (db0 db1 : DB) (lid : Nat)
    (desc hoy : String)
    (hM : 0 < M)
    (hfresh1 : ∀ pr ∈ db0.prestamos, pr.id ≠ lid)
    (hfresh2 : ∀ a ∈ db0.abonos_prestamos, a.prestamo_id ≠ lid)
    (hp : db1.prestamos = db0.prestamos ++
      [{ id := lid, profesional_id := pid, monto := M, fecha := hoy,
         estado := "Pendiente", descripcion := desc }])
    (ha : db1.abonos_prestamos = db0.abonos_prestamos) :
    LoanInv M lid db1 := by
  have hS : sumInstallments db1 lid = 0 := by
    simp only [sumInstallments, ha]
    have hnil : db0.abonos_prestamos.filter (fun a => a.prestamo_id == lid) = [] :=
      List.filter_eq_nil_iff.mpr (fun a haa => by simp [hfresh2 a haa])
    simp [hnil]
  constructor
  · rw [hp, List.countP_append]
    have h0 : db0.prestamos.countP (fun pr => pr.id == lid) = 0 :=
      List.countP_eq_zero.mpr (fun a haa => by simp [hfresh1 a haa])
    simp [h0]
  · intro pr hmem hid
    rw [hp] at hmem
    rcases List.mem_append.mp hmem with hl | hr
    · exact absurd hid (hfresh1 pr hl)
    · have hpr : pr = { id := lid, profesional_id := pid, monto := M,
                        fecha := hoy, estado := "Pendiente",
                        descripcion := desc } := by
        simpa using hr
      subst hpr
      rw [hS]
      refine ⟨by simp, ?_, Or.inr rfl⟩
      simp only []
      constructor
      · intro hcontra
        exact absurd hcontra (by simp)
      · intro hcontra
        omega

/-- C4 amended: for every loan created through `crear_prestamo` with a
positive original amount `M`, after any sequence of amortization operations
(voluntary installments and payroll deductions) the stored outstanding
equals the truncated difference `M - Σ installments` (truncated subtraction
is the clamp `max 0 (M - Σ)`), and the status is `Pagado` exactly when that
outstanding is 0. The amendment restricts `M` to be positive: a loan created
with amount 0 stays `Pendiente` with outstanding 0 (the counterexample). -/
theorem loan_amortization_invariant (db0 : DB) (prof : String) (M : Nat)
    (desc hoy : String) (dbn : DB)
    (hM : 0 < M)
    (hfresh1 : ∀ pr ∈ db0.prestamos, pr.id ≠ db0.next_prestamo_id)
    (hfresh2 : ∀ a ∈ db0.abonos_prestamos, a.prestamo_id ≠ db0.next_prestamo_id)
    (hok : (crear_prestamo db0 prof M desc hoy).2.1 = true)
    (hreach : AmortReach (crear_prestamo db0 prof M desc hoy).1 dbn) :
    ∀ pr ∈ dbn.prestamos, pr.id = db0.next_prestamo_id →
      pr.monto = M - sumInstallments dbn db0.next_prestamo_id ∧
      (pr.estado = "Pagado" ↔ pr.monto = 0) := by
  cases hpid : lookupEmpleadoId db0 prof with
  | none =>
    rw [crear_prestamo] at hok
    simp [hpid] at hok
  | some pid =>
    have hInv0 : LoanInv M db0.next_prestamo_id (crear_prestamo db0 prof M desc hoy).1 := by
      apply LoanInv_crear M pid db0 _ db0.next_prestamo_id desc hoy hM hfresh1 hfresh2 ?_ ?_
      · simp [crear_prestamo, hpid]
      · simp [crear_prestamo, hpid]
    have hInvN : LoanInv M db0.next_prestamo_id dbn := by
      induction hreach with
      | refl => exact hInv0
      | tail hsub hstep ih =>
        cases hstep with
          | abono idr m met hoy2 hora =>
            exact LoanInv_abono M db0.next_prestamo_id _ idr m met hoy2 hora ih
          | nomina ids ab lp nom hoy2 =>
            exact LoanInv_nomina M db0.next_prestamo_id _ ids ab lp nom hoy2 ih
    intro pr hmem hid
    obtain ⟨h1, h2, _⟩ := hInvN.2 pr hmem hid
    exact ⟨h1, h2⟩

/-- Witness for the amended C4: a loan of 100 paid 30 voluntarily and then
liquidated with a payroll budget of 200. -/
theorem loan_amortization_invariant_witness :
    (0 : Nat) = 100 - sumInstallments (pagar_nomina_flexible
        (realizar_abono_deuda (crear_prestamo dbBase "Andrea" 100 "Adelanto" "2025-01-02").1
          TipoDeuda.PROFESIONAL 1 30 "Efectivo" "2025-01-03" "10:00").1
        [] 200 [] "Andrea" "2025-01-04").1 1 ∧
      (("Pagado" : String) = "Pagado" ↔ (0 : Nat) = 0) :=
  loan_amortization_invariant dbBase "Andrea" 100 "Adelanto" "2025-01-02" _
    (by decide) (by decide) (by decide) (by decide)
    (Relation.ReflTransGen.tail
      (Relation.ReflTransGen.tail (Relation.ReflTransGen.refl)
        (AmortStep.abono _ 1 30 "Efectivo" "2025-01-03" "10:00"))
      (AmortStep.nomina _ [] 200 [] "Andrea" "2025-01-04"))
    { id := 1, profesional_id := 1, monto := 0, fecha := "2025-01-02", estado := "Pagado", descripcion := "Adelanto" }
    (by decide) (by decide)

theorem sumAbonosCompra_snoc (db : DB) (ab : AbonoProveedor) (gs : List Gasto)
    (q : Nat) :
    sumAbonosCompra
      { db with abonos_proveedores := db.abonos_proveedores ++ [ab], gastos := gs } q
      = sumAbonosCompra db q + (if ab.compra_id = q then ab.monto else 0) := by
  simp only [sumAbonosCompra, List.filter_append, List.map_append, List.sum_append]
  by_cases h : ab.compra_id = q <;> simp [h]

theorem CompraInv_stepA (T : Nat) (mu : String) (cid : Nat) (db db2 : DB)
    (idc m : Nat) (ab : AbonoProveedor)
    (hc : db2.compras = db.compras.map (fun c =>
      if c.id == idc then { c with estado := "Pagado" } else c))
    (ha : db2.abonos_proveedores = db.abonos_proveedores ++ [ab])
    (hab1 : ab.compra_id = idc) (hab2 : ab.monto = m)
    (hge : idc = cid → sumAbonosCompra db cid + m ≥ T)
    (hInv : CompraInv T mu cid db) : CompraInv T mu cid db2 := by
  obtain ⟨hcount, hrows⟩ := hInv
  have hS2 : sumAbonosCompra db2 cid =
      sumAbonosCompra db cid + (if idc = cid then m else 0) := by
    simp only [sumAbonosCompra, ha, List.filter_append, List.map_append,
      List.sum_append]
    by_cases h : idc = cid <;> simp [hab1, hab2, h]
  have hcomp : ((fun (c : Compra) => c.id == cid) ∘ (fun c =>
      if c.id == idc then { c with estado := "Pagado" } else c)) =
      fun (c : Compra) => c.id == cid := by
    funext c
    by_cases h : c.id = idc <;> simp [h]
  constructor
  · rw [hc, List.countP_map, hcomp]
    exact hcount
  · intro c hmem2 hid
    rw [hc] at hmem2
    obtain ⟨x, hx, rfl⟩ := List.mem_map.mp hmem2
    by_cases hxi : x.id = idc
    · have hxcid : x.id = cid := by simpa [hxi] using hid
      have hic : idc = cid := hxi ▸ hxcid
      obtain ⟨hT2, hmu2, _⟩ := hrows x hx hxcid
      rw [hS2, if_pos hic]
      refine ⟨by simp [hxi, hT2], by simp [hxi, hmu2], ?_⟩
      simp only [hxi, if_pos rfl]
      have hfull : sumAbonosCompra db cid + m ≥ T := hge hic
      simp [hT2]
      omega
    · have hxcid : x.id = cid := by simpa [hxi] using hid
      have hic : idc ≠ cid := fun hcontra => hxi (hxcid.trans hcontra.symm)
      obtain ⟨hT2, hmu2, hiff2⟩ := hrows x hx hxcid
      have hxb : ¬ ((x.id == idc) = true) := by simp [hxi]
      rw [if_neg hxb, hS2, if_neg hic]
      exact ⟨hT2, hmu2, hiff2⟩

theorem CompraInv_stepB (T : Nat) (mu : String) (cid : Nat) (db db2 : DB)
    (idc m : Nat) (ab : AbonoProveedor)
    (hc : db2.compras = db.compras)
    (ha : db2.abonos_proveedores = db.abonos_proveedores ++ [ab])
    (hab1 : ab.compra_id = idc) (hab2 : ab.monto = m)
    (hlt : idc = cid → sumAbonosCompra db cid + m < T)
    (hInv : CompraInv T mu cid db) : CompraInv T mu cid db2 := by
  obtain ⟨hcount, hrows⟩ := hInv
  have hS2 : sumAbonosCompra db2 cid =
      sumAbonosCompra db cid + (if idc = cid then m else 0) := by
    simp only [sumAbonosCompra, ha, List.filter_append, List.map_append,
      List.sum_append]
    by_cases h : idc = cid <;> simp [hab1, hab2, h]
  constructor
  · rw [hc]; exact hcount
  · intro c hmem2 hid
    rw [hc] at hmem2
    obtain ⟨hT2, hmu2, hiff2⟩ := hrows c hmem2 hid
    refine ⟨hT2, hmu2, ?_⟩
    rw [hS2]
    by_cases hic : idc = cid
    · have hsm := hlt hic
      rw [if_pos hic]
      rw [hiff2]
      constructor
      · rintro (h | h)
        · exact Or.inl h
        · omega
      · rintro (h | h)
        · exact Or.inl h
        · omega
    · rw [if_neg hic]
      simpa using hiff2

theorem CompraInv_abonar (T : Nat) (mu : String) (cid : Nat) (db : DB)
    (idc m : Nat) (met hoy : String)
    (hInv : CompraInv T mu cid db) :
    CompraInv T mu cid (abonar_proveedor db idc m met hoy).1 := by
  cases hfind : db.compras.find? (fun c => c.id == idc) with
  | none =>
    have h1 : (abonar_proveedor db idc m met hoy).1 = db := by
      simp [abonar_proveedor, hfind]
    rw [h1]
    exact hInv
  | some compra =>
    have hcmem : compra ∈ db.compras := List.mem_of_find?_eq_some hfind
    have hcid : compra.id = idc := by simpa using List.find?_some hfind
    simp only [abonar_proveedor, hfind]
    rw [sumAbonosCompra_snoc]
    by_cases hpay : sumAbonosCompra db idc + m ≥ compra.total
    · rw [if_pos (by simpa using hpay)]
      refine CompraInv_stepA T mu cid db _ idc m
        { compra_id := idc, monto := m, fecha := hoy, metodo := met }
        ?_ ?_ rfl rfl ?_ hInv
      · rfl
      · rfl
      intro hic
      subst hic
      obtain ⟨hT2, _, _⟩ := hInv.2 compra hcmem hcid
      rw [← hT2]
      exact hpay
    · rw [if_neg (by simpa using hpay)]
      refine CompraInv_stepB T mu cid db _ idc m
        { compra_id := idc, monto := m, fecha := hoy, metodo := met }
        ?_ ?_ rfl rfl ?_ hInv
      · rfl
      · rfl
      intro hic
      subst hic
      obtain ⟨hT2, _, _⟩ := hInv.2 compra hcmem hcid
      rw [← hT2]
      omega

theorem compraItems_frame (idc : Nat) :
    ∀ (items : List (Nat × Nat × Nat)) (db : DB),
      (compraItems idc db items).compras = db.compras ∧
      (compraItems idc db items).abonos_proveedores = db.abonos_proveedores := by
  intro items
  induction items with
  | nil => intro db; exact ⟨rfl, rfl⟩
  | cons hd rest ih =>
    intro db
    obtain ⟨prod_id, cant, costo⟩ := hd
    rw [compraItems]
    cases stockOf { db with detalle_compras := db.detalle_compras ++
        [{ compra_id := idc, producto_id := prod_id, cantidad := cant,
           costo_unitario := costo }] } prod_id with
    | none => exact ih _
    | some curr => exact ih _

theorem registrar_compra_components (db0 : DB) (id_prov : Nat)
    (items : List (Nat × Nat × Nat)) (mu : String) (T : Nat) (obs hoy : String) :
    (registrar_compra db0 id_prov items mu T obs hoy).1.compras =
      db0.compras ++
        [{ id := db0.next_compra_id, proveedor_id := id_prov, fecha := hoy,
           total := T, metodo_pago := mu,
           estado := if mu == "CREDITO" then "Pendiente" else "Pagado",
           observacion := obs }] ∧
    (registrar_compra db0 id_prov items mu T obs hoy).1.abonos_proveedores =
      db0.abonos_proveedores := by
  simp only [registrar_compra]
  by_cases hmu : (mu != "CREDITO") = true
  · rw [if_pos hmu]
    exact ⟨(compraItems_frame db0.next_compra_id items _).1,
      (compraItems_frame db0.next_compra_id items _).2⟩
  · rw [if_neg hmu]
    exact ⟨(compraItems_frame db0.next_compra_id items _).1,
      (compraItems_frame db0.next_compra_id items _).2⟩

theorem CompraInv_registrar (db0 : DB) (id_prov : Nat)
    (items : List (Nat × Nat × Nat)) (mu : String) (T : Nat) (obs hoy : String)
    (hT : 0 < T)
    (hfresh1 : ∀ c ∈ db0.compras, c.id ≠ db0.next_compra_id)
    (hfresh2 : ∀ a ∈ db0.abonos_proveedores, a.compra_id ≠ db0.next_compra_id) :
    CompraInv T mu db0.next_compra_id
      (registrar_compra db0 id_prov items mu T obs hoy).1 := by
  obtain ⟨hcomp, habo⟩ :=
    registrar_compra_components db0 id_prov items mu T obs hoy
  have hS : sumAbonosCompra (registrar_compra db0 id_prov items mu T obs hoy).1
      db0.next_compra_id = 0 := by
    simp only [sumAbonosCompra, habo]
    have hnil : db0.abonos_proveedores.filter
        (fun a => a.compra_id == db0.next_compra_id) = [] :=
      List.filter_eq_nil_iff.mpr (fun a haa => by simp [hfresh2 a haa])
    simp [hnil]
  constructor
  · rw [hcomp, List.countP_append]
    have h0 : db0.compras.countP (fun c => c.id == db0.next_compra_id) = 0 :=
      List.countP_eq_zero.mpr (fun a haa => by simp [hfresh1 a haa])
    simp [h0]
  · intro c hmem hid
    rw [hcomp] at hmem
    rcases List.mem_append.mp hmem with hl | hr
    · exact absurd hid (hfresh1 c hl)
    · have hc : c = { id := db0.next_compra_id, proveedor_id := id_prov,
                      fecha := hoy, total := T, metodo_pago := mu,
                      estado := if mu == "CREDITO" then "Pendiente" else "Pagado",
                      observacion := obs } := by simpa using hr
      subst hc
      rw [hS]
      refine ⟨rfl, rfl, ?_⟩
      by_cases hmu : mu = "CREDITO"
      · simp only [hmu]
        simp
        omega
      · have hmub : (mu == "CREDITO") = false := by simp [hmu]
        simp [hmub, hmu]

/-- C8 amended: for a purchase with positive total registered through
`registrar_compra`, after any sequence of `abonar_proveedor` calls the
status is `Pagado` exactly when the method was not `CREDITO` (cash
purchases are `Pagado` immediately, with no installments) or the recorded
supplier installments have reached the total. The amendment adds the
non-credit disjunct, which the counterexample (a cash purchase) forces. -/
theorem purchase_settlement_invariant (db0 : DB) (id_prov : Nat)
    (items : List (Nat × Nat × Nat)) (mu : String) (T : Nat) (obs hoy : String)
    (dbn : DB) (hT : 0 < T)
    (hfresh1 : ∀ c ∈ db0.compras, c.id ≠ db0.next_compra_id)
    (hfresh2 : ∀ a ∈ db0.abonos_proveedores, a.compra_id ≠ db0.next_compra_id)
    (hreach : AbonoProvReach (registrar_compra db0 id_prov items mu T obs hoy).1 dbn) :
    ∀ c ∈ dbn.compras, c.id = db0.next_compra_id →
      (c.estado = "Pagado" ↔
        (mu ≠ "CREDITO" ∨ sumAbonosCompra dbn db0.next_compra_id ≥ T)) := by
  have hInvN : CompraInv T mu db0.next_compra_id dbn := by
    induction hreach with
    | refl => exact CompraInv_registrar db0 id_prov items mu T obs hoy hT hfresh1 hfresh2
    | tail hsub hstep ih =>
      cases hstep with
        | step idc m met hoy2 =>
          exact CompraInv_abonar T mu db0.next_compra_id _ idc m met hoy2 ih
  intro c hmem hid
  exact (hInvN.2 c hmem hid).2.2

/-- Witness for the amended C8: a credit purchase of 100 settled by a single
installment of 100 flips to `Pagado`. -/
theorem purchase_settlement_invariant_witness :
    (("Pagado" : String) = "Pagado" ↔
      (("CREDITO" : String) ≠ "CREDITO" ∨
        sumAbonosCompra (abonar_proveedor dbC8cred 1 100 "Efectivo" "2025-01-03").1 1 ≥ 100)) :=
  purchase_settlement_invariant dbBase 1 [] "CREDITO" 100 "Compra Inventario"
    "2025-01-02" _ (by decide) (by decide) (by decide)
    (Relation.ReflTransGen.tail (Relation.ReflTransGen.refl)
      (AbonoProvStep.step _ 1 100 "Efectivo" "2025-01-03"))
    { id := 1, proveedor_id := 1, fecha := "2025-01-02", total := 100, metodo_pago := "CREDITO", estado := "Pagado", observacion := "Compra Inventario" }
    (by decide) (by decide)

theorem applyWalk_nil (l : List Prestamo) : applyWalk [] l = l := by
  simp [applyWalk]

theorem fifoWalk_fst_mem :
    ∀ (l : List (Nat × Nat)) (B : Nat) (o : Nat × Nat × Option String × Nat),
      o ∈ fifoWalk B l → o.1 ∈ l.map Prod.fst := by
  intro l
  induction l with
  | nil => intro B o ho; simp [fifoWalk] at ho
  | cons hd rest ih =>
    intro B o ho
    obtain ⟨i, m⟩ := hd
    rw [fifoWalk] at ho
    by_cases hB : B = 0
    · rw [if_pos hB] at ho; simp at ho
    · rw [if_neg hB] at ho
      by_cases hle : m ≤ B
      · rw [if_pos hle] at ho
        rcases List.mem_cons.mp ho with rfl | ho2
        · simp
        · have := ih (B - m) o ho2
          simp only [List.map_cons]
          exact List.mem_cons_of_mem _ this
      · rw [if_neg hle] at ho
        simp at ho
        rw [ho]
        simp

theorem applyWalk_cons_absorb (i m2 : Nat) (e2 : Option String) (v : Nat)
    (outs : List (Nat × Nat × Option String × Nat)) (l : List Prestamo)
    (hni : ∀ o ∈ outs, o.1 ≠ i) :
    applyWalk outs (l.map (fun pr =>
      if pr.id == i then { pr with monto := m2, estado := e2.getD pr.estado }
      else pr)) =
    applyWalk ((i, m2, e2, v) :: outs) l := by
  simp only [applyWalk, List.map_map]
  apply List.map_congr_left
  intro pr _
  by_cases hpi : pr.id = i
  · have hfn : outs.find? (fun o => o.1 == pr.id) = none :=
      List.find?_eq_none.mpr (fun o ho => by simp [hpi, hni o ho])
    simp only [Function.comp]
    rw [if_pos (by simp [hpi])]
    have hupd : ({ pr with monto := m2, estado := e2.getD pr.estado } : Prestamo).id
        = pr.id := rfl
    simp only [hupd, hfn]
    rw [List.find?_cons_of_pos _ (by simp [hpi])]
  · simp only [Function.comp]
    rw [if_neg (by simp [hpi])]
    rw [List.find?_cons_of_neg _ (by simp [Ne.symm hpi])]

theorem nominaLoop_prestamos (hoy : String) :
    ∀ (pend : List (Nat × Nat)) (db : DB) (rem : Nat),
      (pend.map Prod.fst).Nodup →
      (nominaLoop hoy db rem pend).prestamos =
        applyWalk (fifoWalk rem pend) db.prestamos := by
  intro pend
  induction pend with
  | nil => intro db rem _; rw [fifoWalk, applyWalk_nil]; rfl
  | cons hd rest ih =>
    intro db rem hnd
    obtain ⟨i, m⟩ := hd
    have hnd2 : (rest.map Prod.fst).Nodup := by
      simp only [List.map_cons, List.nodup_cons] at hnd
      exact hnd.2
    have hnotin : i ∉ rest.map Prod.fst := by
      simp only [List.map_cons, List.nodup_cons] at hnd
      exact hnd.1
    by_cases hrem : rem = 0
    · subst hrem
      rw [nominaLoop_zero, fifoWalk]
      rw [if_pos rfl, applyWalk_nil]
    · rw [fifoWalk, if_neg hrem]
      by_cases hle : m ≤ rem
      · rw [if_pos hle]
        rw [nominaLoop_cons_full hoy db rem i m rest hrem hle]
        rw [ih _ (rem - m) hnd2]
        have habs := applyWalk_cons_absorb i 0 (some "Pagado") m
          (fifoWalk (rem - m) rest) db.prestamos
          (fun o ho => fun hcontra => hnotin (hcontra ▸ fifoWalk_fst_mem rest (rem - m) o ho))
        rw [← habs]
        rfl
      · rw [if_neg hle]
        rw [nominaLoop_cons_part hoy db rem i m rest hrem hle]
        have habs := applyWalk_cons_absorb i (m - rem) none rem
          ([] : List (Nat × Nat × Option String × Nat)) db.prestamos
          (fun o ho => by simp at ho)
        rw [← habs, applyWalk_nil]
        rfl

theorem nominaLoop_abonos (hoy : String) :
    ∀ (pend : List (Nat × Nat)) (db : DB) (rem : Nat),
      (nominaLoop hoy db rem pend).abonos_prestamos =
        db.abonos_prestamos ++
          walkAbonos hoy db.next_abono_id (fifoWalk rem pend) := by
  intro pend
  induction pend with
  | nil =>
    intro db rem
    rw [fifoWalk, walkAbonos]
    simp
    rfl
  | cons hd rest ih =>
    intro db rem
    obtain ⟨i, m⟩ := hd
    by_cases hrem : rem = 0
    · subst hrem
      rw [nominaLoop_zero, fifoWalk, if_pos rfl, walkAbonos]
      simp
    · rw [fifoWalk, if_neg hrem]
      by_cases hle : m ≤ rem
      · rw [if_pos hle]
        rw [nominaLoop_cons_full hoy db rem i m rest hrem hle]
        rw [ih _ (rem - m)]
        rw [walkAbonos]
        simp only [List.append_assoc, List.singleton_append]
      · rw [if_neg hle]
        rw [nominaLoop_cons_part hoy db rem i m rest hrem hle]
        rw [walkAbonos, walkAbonos]

/-- C7 counterexample: with pending loans L1(50) and a zero-outstanding
pending loan (id 2, outstanding 0) and budget exactly 50, the loop breaks
once the budget is exhausted, so the second loan — whose outstanding 0 is
"at most the remaining budget" 0 — is left `Pendiente` instead of being set
to `Pagado` as the claim, read literally, demands. -/
theorem pagar_nomina_fifo_counterexample :
    (pagar_nomina_flexible dbC7z [] 50 [] "Andrea" "2025-02-01").2.1 = true ∧
    (∀ pr ∈ (pagar_nomina_flexible dbC7z [] 50 [] "Andrea" "2025-02-01").1.prestamos,
      pr.id = 2 → pr.monto = 0 ∧ pr.estado = "Pendiente") ∧
    ¬ (∀ pr ∈ (pagar_nomina_flexible dbC7z [] 50 [] "Andrea" "2025-02-01").1.prestamos,
        pr.id = 2 → pr.estado = "Pagado") := by
  refine ⟨by decide, by decide, by decide⟩

/-- C7 amended: while the remaining budget is positive,
`pagar_nomina_flexible` walks the professional's pending loans in id order
(oldest first); a loan covered by the remaining budget is zeroed, marked
`Pagado` and its full outstanding recorded as an installment and deducted
from the budget; the first loan exceeding the remaining budget is reduced by
exactly the remaining budget (status untouched) and the walk stops; the walk
also stops as soon as the budget is exhausted (the amendment). This is
stated as a refinement against `fifoWalk`, the walk written from the claim,
plus the claim's concrete instance: L1(50), L2(100), budget 120 gives L1
`Pagado`/0 and L2 reduced to 30. -/
theorem pagar_nomina_fifo :
    (∀ (db : DB) (ids : List Nat) (B : Nat) (lp : List (String × Nat))
        (nom hoy : String) (pid : Nat),
      lookupEmpleadoId db nom = some pid → 0 < B →
      (db.prestamos.map (·.id)).Nodup →
      ((pagar_nomina_flexible db ids B lp nom hoy).1.prestamos =
        applyWalk (fifoWalk B (prestamosPendientes db pid)) db.prestamos ∧
       (pagar_nomina_flexible db ids B lp nom hoy).1.abonos_prestamos =
        db.abonos_prestamos ++
          walkAbonos hoy db.next_abono_id (fifoWalk B (prestamosPendientes db pid)))) ∧
    ((pagar_nomina_flexible dbC7 [] 120 [] "Andrea" "2025-02-01").1.prestamos =
      [{ prestamoL1 with monto := 0, estado := "Pagado" },
       { prestamoL2 with monto := 30 }] ∧
     ((pagar_nomina_flexible dbC7 [] 120 [] "Andrea" "2025-02-01").1.abonos_prestamos.map
        (fun a => (a.prestamo_id, a.valor))) = [(1, 50), (2, 70)]) := by
  constructor
  · intro db ids B lp nom hoy pid hpid hB hnd
    have hBne : B > 0 := hB
    simp only [pagar_nomina_flexible, hpid]
    rw [if_pos hBne]
    have hndp : ((prestamosPendientes db pid).map Prod.fst).Nodup := by
      have h1 : ((db.prestamos.filter (fun pr =>
          pr.profesional_id == pid && pr.estado == "Pendiente")).map (·.id)).Nodup :=
        hnd.sublist (List.Sublist.map _ (List.filter_sublist _))
      have h2 : ((db.prestamos.filter (fun pr =>
          pr.profesional_id == pid && pr.estado == "Pendiente")).map
            (fun pr => (pr.id, pr.monto))).map Prod.fst =
          (db.prestamos.filter (fun pr =>
            pr.profesional_id == pid && pr.estado == "Pendiente")).map (·.id) := by
        rw [List.map_map]
        rfl
      have h3 := (List.Perm.map Prod.fst (sortByFst_perm
        ((db.prestamos.filter (fun pr =>
          pr.profesional_id == pid && pr.estado == "Pendiente")).map
            (fun pr => (pr.id, pr.monto))))).nodup_iff
      rw [prestamosPendientes]
      rw [h3, h2]
      exact h1
    constructor
    · rw [(nominaGastos_frame nom hoy lp _).1]
      exact nominaLoop_prestamos hoy _ _ B hndp
    · rw [(nominaGastos_frame nom hoy lp _).2]
      exact nominaLoop_abonos hoy _ _ B
  · exact ⟨by decide, by decide⟩

/-- Witness for the amended C7: the general refinement instantiated at the
two-loan store with budget 120. -/
theorem pagar_nomina_fifo_witness :
    (pagar_nomina_flexible dbC7 [] 120 [] "Andrea" "2025-02-01").1.prestamos =
      applyWalk (fifoWalk 120 (prestamosPendientes dbC7 1)) dbC7.prestamos :=
  (pagar_nomina_fifo.1 dbC7 [] 120 [] "Andrea" "2025-02-01" 1
    (by decide) (by decide) (by decide)).1

theorem digitVal_digitChar : ∀ a, a < 10 →
    digitVal (digitChar a) = a ∧ isDigitCh (digitChar a) = true := by
  decide

theorem takeNum_two (lo hi lo1 : Nat) (c1 c2 : Char) (rest : List Char)
    (h1 : isDigitCh c1 = true) (h2 : isDigitCh c2 = true)
    (hlo : lo ≤ 10 * digitVal c1 + digitVal c2)
    (hhi : 10 * digitVal c1 + digitVal c2 ≤ hi) :
    takeNum lo hi lo1 (c1 :: c2 :: rest) =
      some (10 * digitVal c1 + digitVal c2, rest) := by
  have hc : (isDigitCh c1 && isDigitCh c2 &&
      decide (lo ≤ 10 * digitVal c1 + digitVal c2) &&
      decide (10 * digitVal c1 + digitVal c2 ≤ hi)) = true := by
    simp [h1, h2, hlo, hhi]
  simp only [takeNum]
  rw [if_pos hc]

/-- `strftime` then `strptime` of a time of day is the identity. -/
theorem parseHM_fmtHM (m : Nat) (hm : m < 1440) : parseHM (fmtHM m) = some m := by
  obtain ⟨hv1, hd1⟩ := digitVal_digitChar (m / 60 / 10) (by omega)
  obtain ⟨hv2, hd2⟩ := digitVal_digitChar (m / 60 % 10) (by omega)
  obtain ⟨hv3, hd3⟩ := digitVal_digitChar (m % 60 / 10) (by omega)
  obtain ⟨hv4, hd4⟩ := digitVal_digitChar (m % 60 % 10) (by omega)
  have hA : takeNum 0 23 0 ((fmtHM m).toList)
      = some (m / 60, ':' :: [digitChar (m % 60 / 10), digitChar (m % 60 % 10)]) := by
    have ht := takeNum_two 0 23 0 (digitChar (m / 60 / 10)) (digitChar (m / 60 % 10))
      (':' :: [digitChar (m % 60 / 10), digitChar (m % 60 % 10)]) hd1 hd2 (by omega)
      (by rw [hv1, hv2]; omega)
    rw [show (fmtHM m).toList = digitChar (m / 60 / 10) :: digitChar (m / 60 % 10) ::
      (':' :: [digitChar (m % 60 / 10), digitChar (m % 60 % 10)]) from rfl, ht,
      hv1, hv2]
    have : 10 * (m / 60 / 10) + m / 60 % 10 = m / 60 := by omega
    rw [this]
  have hB : takeNum 0 59 0 [digitChar (m % 60 / 10), digitChar (m % 60 % 10)]
      = some (m % 60, []) := by
    have ht := takeNum_two 0 59 0 (digitChar (m % 60 / 10)) (digitChar (m % 60 % 10))
      [] hd3 hd4 (by omega) (by rw [hv3, hv4]; omega)
    rw [ht, hv3, hv4]
    have : 10 * (m % 60 / 10) + m % 60 % 10 = m % 60 := by omega
    rw [this]
  simp only [parseHM, hA, hB]
  have : 60 * (m / 60) + m % 60 = m := by omega
  rw [this]

theorem sharesB_symm (x y : Iv) (h : sharesB x y = true) : sharesB y x = true := by
  simp only [sharesB, Bool.and_eq_true, Bool.or_eq_true, beq_iff_eq] at h ⊢
  obtain ⟨h1, h2⟩ := h
  refine ⟨h1.symm, ?_⟩
  rcases h2 with (h | h) | h
  · left; right; exact h
  · left; left; exact h
  · right; exact h.symm

theorem overlapB_symm (x y : Iv) (h : overlapB x y = false) : overlapB y x = false := by
  cases hxi : parseHM x.hora_inicio <;> cases hxf : parseHM x.hora_fin <;>
    cases hyi : parseHM y.hora_inicio <;> cases hyf : parseHM y.hora_fin <;>
    simp only [overlapB, hxi, hxf, hyi, hyf] at h ⊢
  rename_i s1 e1 s2 e2
  rcases Bool.and_eq_false_iff.mp h with h0 | h0 <;>
    rw [Bool.and_eq_false_iff] <;>
    simp only [decide_eq_false_iff_not, not_lt, gt_iff_lt] at h0 ⊢ <;> omega

theorem ivSep_symm (x y : Iv) (h : ivSep x y) : ivSep y x := by
  intro hs
  exact overlapB_symm x y (h (sharesB_symm y x hs))

instance instDecIvSep (x y : Iv) : Decidable (ivSep x y) := by
  unfold ivSep
  infer_instance

/-- C1 counterexample: the operations as the source exposes them do not keep
the calendar overlap-free. `guardar_paquete_citas` never runs the conflict
check, so booking the very same `09:00`–`10:00` slot twice in a row from the
seeded store is a reachable sequence, and it leaves two identical occupied
intervals for the same professional and date. -/
theorem no_overlap_counterexample :
    ∃ db, SchedReach dbBase db ∧ ¬ noOverlap db := by
  refine ⟨(guardar_paquete_citas
      (guardar_paquete_citas dbBase [itemC1] "Cli" "301" "2025-12-01").1
      [itemC1] "Cli" "301" "2025-12-01").1, ?_, ?_⟩
  · exact Relation.ReflTransGen.tail
      (Relation.ReflTransGen.tail Relation.ReflTransGen.refl
        (SchedStep.agendar dbBase [itemC1] "Cli" "301" "2025-12-01"))
      (SchedStep.agendar _ [itemC1] "Cli" "301" "2025-12-01")
  · unfold noOverlap
    decide

/-- Inversion of a passing conflict check: the start time parsed, the
professional matched, both loops ran to completion without a hit, and the
returned end-of-slot string is the formatted end time. -/
theorem validar_choque_false_inv (db : DB) (f h pro : String) (d : Nat)
    (hfin : String)
    (hv : validar_choque db f h d pro = (false, hfin)) :
    ∃ ini pid, parseHM h = some ini ∧ lookupEmpleadoId db pro = some pid ∧
      hfin = fmtHM ((ini + d) % 1440) ∧
      checkCitas ini (ini + d) (citasRelevantes db (f_to_iso f) pid)
        = Except.ok none ∧
      checkBloqueos ini (ini + d) (bloqueosRelevantes db (f_to_iso f) pid)
        = Except.ok none := by
  cases hini : parseHM h with
  | none =>
    simp only [validar_choque, validarChoqueE, parseHME, hini, Bind.bind,
      Except.bind, Prod.mk.injEq, Bool.true_eq_false, false_and] at hv
  | some ini =>
    cases hpid : lookupEmpleadoId db pro with
    | none =>
      simp only [validar_choque, validarChoqueE, parseHME, hini, hpid, Bind.bind,
        Except.bind, Prod.mk.injEq, Bool.true_eq_false, false_and] at hv
    | some pid =>
      rw [validar_choque_eq db f h pro d ini pid hini hpid] at hv
      refine ⟨ini, pid, rfl, rfl, ?_⟩
      cases hc : checkCitas ini (ini + d) (citasRelevantes db (f_to_iso f) pid) with
      | error e => simp only [hc, Prod.mk.injEq, Bool.true_eq_false, false_and] at hv
      | ok o =>
        cases o with
        | some msg => simp only [hc, Prod.mk.injEq, Bool.true_eq_false, false_and] at hv
        | none =>
          cases hb : checkBloqueos ini (ini + d)
              (bloqueosRelevantes db (f_to_iso f) pid) with
          | error e => simp only [hc, hb, Prod.mk.injEq, Bool.true_eq_false, false_and] at hv
          | ok o2 =>
            cases o2 with
            | some msg => simp only [hc, hb, Prod.mk.injEq, Bool.true_eq_false, false_and] at hv
            | none =>
              simp only [hc, hb, Prod.mk.injEq] at hv
              exact ⟨hv.2.symm, rfl, rfl⟩

/-- A slot that passed both loops of `validar_choque` is separated from every
interval standing in the calendar. -/
theorem newIv_sep (db : DB) (ini d pid : Nat) (fechaIso hora hfin : String)
    (hini : parseHM hora = some ini)
    (hfinp : parseHM hfin = some ((ini + d) % 1440))
    (hcc : checkCitas ini (ini + d) (citasRelevantes db fechaIso pid)
      = Except.ok none)
    (hcb : checkBloqueos ini (ini + d) (bloqueosRelevantes db fechaIso pid)
      = Except.ok none) :
    ∀ e ∈ ivs db, ivSep ⟨pid, false, fechaIso, hora, hfin⟩ e := by
  intro e he hs
  simp only [ivs] at he
  rcases List.mem_append.mp he with hc | hb
  · simp only [citaIvs, List.mem_map, List.mem_filter] at hc
    obtain ⟨c, ⟨hcmem, hcest⟩, rfl⟩ := hc
    simp only [sharesB, ivOfCita, Bool.false_or, Bool.and_eq_true, Bool.or_eq_true,
      beq_iff_eq] at hs
    obtain ⟨hf, hpid2⟩ := hs
    have hcrel : c ∈ citasRelevantes db fechaIso pid := by
      simp only [citasRelevantes, List.mem_filter, Bool.and_eq_true, beq_iff_eq]
      exact ⟨hcmem, ⟨⟨hf.symm, hpid2.symm⟩, hcest⟩⟩
    simp only [overlapB, ivOfCita, hini, hfinp]
    cases hcia : parseHM c.hora_inicio with
    | none => rfl
    | some a =>
      cases hcif : parseHM c.hora_fin with
      | none => rfl
      | some b =>
        by_cases h1 : ini < b
        · have h2 : ¬ (ini + d > a) := fun hgt =>
            (checkCitas_not_none ini (ini + d) (citasRelevantes db fechaIso pid)
              c hcrel a b hcia hcif h1 hgt) hcc
          rw [Bool.and_eq_false_iff]
          right
          simp only [decide_eq_false_iff_not, gt_iff_lt, not_lt]
          have := Nat.mod_le (ini + d) 1440
          omega
        · rw [Bool.and_eq_false_iff]
          left
          simp only [decide_eq_false_iff_not]
          exact h1
  · simp only [bloqueoIvs, List.mem_map] at hb
    obtain ⟨bq, hbmem, rfl⟩ := hb
    simp only [sharesB, ivOfBloqueo, Bool.false_or, Bool.and_eq_true,
      Bool.or_eq_true, beq_iff_eq] at hs
    obtain ⟨hf, hrest⟩ := hs
    have hbrel : bq ∈ bloqueosRelevantes db fechaIso pid := by
      simp only [bloqueosRelevantes, List.mem_filter, Bool.and_eq_true,
        Bool.or_eq_true, beq_iff_eq]
      refine ⟨hbmem, hf.symm, ?_⟩
      rcases hrest with h | h
      · right; exact h
      · left; exact h.symm
    simp only [overlapB, ivOfBloqueo, hini, hfinp]
    cases hbia : parseHM bq.hora_inicio with
    | none => rfl
    | some a =>
      cases hbif : parseHM bq.hora_fin with
      | none => rfl
      | some b =>
        by_cases h1 : ini < b
        · have h2 : ¬ (ini + d > a) := fun hgt =>
            (checkBloqueos_not_none ini (ini + d)
              (bloqueosRelevantes db fechaIso pid)
              bq hbrel a b hbia hbif h1 hgt) hcb
          rw [Bool.and_eq_false_iff]
          right
          simp only [decide_eq_false_iff_not, gt_iff_lt, not_lt]
          have := Nat.mod_le (ini + d) 1440
          omega
        · rw [Bool.and_eq_false_iff]
          left
          simp only [decide_eq_false_iff_not]
          exact h1

theorem pairwise_middle_insert (n : Iv) (C B : List Iv)
    (h : (C ++ B).Pairwise ivSep) (hn : ∀ e ∈ C ++ B, ivSep n e) :
    ((C ++ [n]) ++ B).Pairwise ivSep := by
  have hperm : ((C ++ [n]) ++ B).Perm (n :: (C ++ B)) := by
    rw [List.append_assoc]
    exact List.perm_middle
  exact (List.Perm.pairwise_iff (fun hxy => ivSep_symm _ _ hxy) hperm).mpr
    (List.pairwise_cons.mpr ⟨hn, h⟩)

theorem pairwise_extend_right (C B N : List Iv)
    (h : (C ++ B).Pairwise ivSep) (hN : N.Pairwise ivSep)
    (hcross : ∀ n ∈ N, ∀ e ∈ C ++ B, ivSep n e) :
    (C ++ (B ++ N)).Pairwise ivSep := by
  rw [← List.append_assoc, List.pairwise_append]
  exact ⟨h, hN, fun a ha n hn => ivSep_symm _ _ (hcross n hn a ha)⟩

theorem ivs_congr (db db2 : DB) (h1 : db2.citas = db.citas)
    (h2 : db2.bloqueos = db.bloqueos) : ivs db2 = ivs db := by
  simp only [ivs, citaIvs, bloqueoIvs, h1, h2]

/-- Cancelling an appointment only removes intervals from the calendar. -/
theorem citaIvs_cancel_sublist (idc : Nat) :
    ∀ l : List Cita,
      (((l.map (fun c => if c.id == idc then { c with estado := "Cancelado" }
          else c)).filter (fun c => c.estado != "Cancelado")).map ivOfCita).Sublist
        ((l.filter (fun c => c.estado != "Cancelado")).map ivOfCita) := by
  intro l
  induction l with
  | nil => simp
  | cons c rest ih =>
    by_cases hid : c.id = idc
    · have hmap : (if (c.id == idc) = true then ({ c with estado := "Cancelado" } : Cita)
          else c) = { c with estado := "Cancelado" } := by simp [hid]
      simp only [List.map_cons, hmap, List.filter_cons]
      rw [if_neg (by simp)]
      by_cases hest : (c.estado != "Cancelado") = true
      · rw [if_pos hest]
        simp only [List.map_cons]
        exact List.Sublist.cons _ ih
      · rw [if_neg hest]
        exact ih
    · have hmap : (if (c.id == idc) = true then ({ c with estado := "Cancelado" } : Cita)
          else c) = c := by simp [hid]
      simp only [List.map_cons, hmap, List.filter_cons]
      by_cases hest : (c.estado != "Cancelado") = true
      · rw [if_pos hest, if_pos hest]
        simp only [List.map_cons]
        exact List.Sublist.cons₂ _ ih
      · rw [if_neg hest, if_neg hest]
        exact ih

theorem cancelar_preserves (db : DB) (idc : Nat)
    (hno : noOverlap db) (hok : CitasOk db) :
    noOverlap (cancelar_cita db idc).1 ∧ CitasOk (cancelar_cita db idc).1 := by
  constructor
  · unfold noOverlap ivs citaIvs bloqueoIvs at hno ⊢
    simp only [cancelar_cita]
    exact List.Pairwise.sublist
      (List.Sublist.append (citaIvs_cancel_sublist idc db.citas)
        (List.Sublist.refl _)) hno
  · obtain ⟨hbound, hnd⟩ := hok
    constructor
    · intro c hc
      simp only [cancelar_cita, List.mem_map] at hc
      obtain ⟨c0, hc0, hceq⟩ := hc
      have hid : c.id = c0.id := by
        rw [← hceq]
        by_cases hh : (c0.id == idc) = true <;> simp [hh]
      simp only [cancelar_cita]
      rw [hid]
      exact hbound c0 hc0
    · simp only [cancelar_cita, List.map_map]
      have hcomp : ((fun c : Cita => c.id) ∘ (fun c =>
          if c.id == idc then { c with estado := "Cancelado" } else c))
          = fun c : Cita => c.id := by
        funext c
        by_cases hh : c.id = idc <;> simp [hh]
      rw [hcomp]
      exact hnd

theorem insertBloqueos_spec (pid : Nat) (h1 h2 mot : String) :
    ∀ (ds : List String) (db : DB),
      (insertBloqueos pid h1 h2 mot db ds).citas = db.citas ∧
      (insertBloqueos pid h1 h2 mot db ds).next_cita_id = db.next_cita_id ∧
      (insertBloqueos pid h1 h2 mot db ds).bloqueos.map ivOfBloqueo
        = db.bloqueos.map ivOfBloqueo
          ++ ds.map (fun f => mkBloqueoIv pid f h1 h2) := by
  intro ds
  induction ds with
  | nil => intro db; exact ⟨rfl, rfl, by simp [insertBloqueos]⟩
  | cons f rest ih =>
    intro db
    simp only [insertBloqueos]
    obtain ⟨hc, hn, hb⟩ := ih _
    refine ⟨hc, hn, ?_⟩
    rw [hb]
    simp [ivOfBloqueo, mkBloqueoIv, List.append_assoc]

theorem mkBloqueoIv_sep_same (pid : Nat) (h1 h2 : String) (d1 d2 : String)
    (hne : d1 ≠ d2) : ivSep (mkBloqueoIv pid d1 h1 h2) (mkBloqueoIv pid d2 h1 h2) := by
  intro hs
  exfalso
  simp only [sharesB, mkBloqueoIv, Bool.and_eq_true, beq_iff_eq] at hs
  exact hne hs.1

theorem bloqueo_preserves (db : DB) (pro f1 f2 h1 h2 mot : String) (pid : Nat)
    (dias : List String)
    (hpid : bloqueoPid db pro = some pid)
    (hdias : bloqueoDias f1 f2 = some dias)
    (hnd : dias.Nodup)
    (hsep : ∀ d ∈ dias, ∀ e ∈ ivs db, ivSep (mkBloqueoIv pid d h1 h2) e)
    (hno : noOverlap db) (hok : CitasOk db) :
    noOverlap (crear_bloqueo db pro f1 f2 h1 h2 mot).1 ∧
      CitasOk (crear_bloqueo db pro f1 f2 h1 h2 mot).1 := by
  have hpid2 : (if pro == "TODOS" then some 0 else lookupEmpleadoId db pro)
      = some pid := hpid
  have hred : (crear_bloqueo db pro f1 f2 h1 h2 mot).1
      = insertBloqueos pid h1 h2 mot db dias := by
    simp only [crear_bloqueo, hdias, hpid2]
  rw [hred]
  obtain ⟨hc, hn, hb⟩ := insertBloqueos_spec pid h1 h2 mot dias db
  constructor
  · unfold noOverlap at hno ⊢
    have hivs : ivs (insertBloqueos pid h1 h2 mot db dias)
        = citaIvs db
          ++ (bloqueoIvs db ++ dias.map (fun f => mkBloqueoIv pid f h1 h2)) := by
      simp only [ivs, citaIvs, bloqueoIvs, hc, hb]
    rw [hivs]
    refine pairwise_extend_right _ _ _ hno ?_ ?_
    · refine List.Pairwise.map _ ?_ hnd
      intro a b hab
      exact mkBloqueoIv_sep_same pid h1 h2 a b hab
    · intro n hn2 e he
      simp only [List.mem_map] at hn2
      obtain ⟨d, hd, rfl⟩ := hn2
      exact hsep d hd e he
  · obtain ⟨hbound, hndc⟩ := hok
    constructor
    · intro c hcm
      rw [hc] at hcm
      rw [hn]
      exact hbound c hcm
    · rw [hc]
      exact hndc

/-- Appending a non-employee row (the walk-in client) does not change the
employee-by-name lookup. -/
theorem lookupEmpleadoId_stable (db db2 : DB) (t : Tercero) (nom2 : String)
    (hts : db2.terceros = db.terceros ++ [t]) (ht : t.es_empleado = false) :
    lookupEmpleadoId db2 nom2 = lookupEmpleadoId db nom2 := by
  simp only [lookupEmpleadoId, hts, List.find?_append]
  have hnone : List.find?
      (fun x : Tercero => x.nombre_completo == nom2 && x.es_empleado) [t] = none := by
    simp [List.find?, ht]
  rw [hnone]
  simp

/-- Inserting one validated appointment row keeps the calendar overlap-free
and the id discipline intact. -/
theorem insert_one_ok (db db2 : DB) (nc : Cita) (pid : Nat) (item : CarritoItem)
    (ini dur : Nat)
    (hc2 : db2.citas = db.citas ++ [nc])
    (hb2 : db2.bloqueos = db.bloqueos)
    (hn2 : db2.next_cita_id = db.next_cita_id + 1)
    (hncid : nc.id = db.next_cita_id)
    (hncpid : nc.profesional_id = pid)
    (hncf : nc.fecha = f_to_iso item.fecha)
    (hnci : nc.hora_inicio = item.inicio)
    (hncfin : nc.hora_fin = item.fin)
    (hncest : nc.estado = "Pendiente")
    (hini : parseHM item.inicio = some ini)
    (hfin : item.fin = fmtHM ((ini + dur) % 1440))
    (hcc : checkCitas ini (ini + dur)
      (citasRelevantes db (f_to_iso item.fecha) pid) = Except.ok none)
    (hcb : checkBloqueos ini (ini + dur)
      (bloqueosRelevantes db (f_to_iso item.fecha) pid) = Except.ok none)
    (hno : noOverlap db) (hok : CitasOk db) :
    noOverlap db2 ∧ CitasOk db2 := by
  have hfinp : parseHM item.fin = some ((ini + dur) % 1440) := by
    rw [hfin]
    exact parseHM_fmtHM _ (Nat.mod_lt _ (by omega))
  have hpred : (nc.estado != "Cancelado") = true := by
    rw [hncest]
    decide
  have hivnc : ivOfCita nc = { pid := pid, global := false, fecha := f_to_iso item.fecha, hora_inicio := item.inicio, hora_fin := item.fin } := by
    simp only [ivOfCita, hncpid, hncf, hnci, hncfin]
  constructor
  · unfold noOverlap at hno ⊢
    have hciv : citaIvs db2 = citaIvs db ++ [ivOfCita nc] := by
      simp only [citaIvs, hc2, List.filter_append]
      rw [List.filter_cons, if_pos hpred]
      simp only [List.filter_nil, List.map_append, List.map_cons, List.map_nil]
    have hbiv : bloqueoIvs db2 = bloqueoIvs db := by
      simp only [bloqueoIvs, hb2]
    have hivs2 : ivs db2 = (citaIvs db ++ [ivOfCita nc]) ++ bloqueoIvs db := by
      simp only [ivs, hciv, hbiv]
    rw [hivs2]
    refine pairwise_middle_insert _ _ _ hno ?_
    rw [hivnc]
    exact newIv_sep db ini dur pid (f_to_iso item.fecha) item.inicio item.fin
      hini hfinp hcc hcb
  · refine ⟨?_, ?_⟩
    · intro c hc
      rw [hc2] at hc
      rw [hn2]
      rcases List.mem_append.mp hc with h | h
      · have h2 := hok.1 c h
        omega
      · rw [List.mem_singleton] at h
        subst h
        rw [hncid]
        omega
    · show (db2.citas.map (fun c : Cita => c.id)).Nodup
      rw [hc2, List.map_append, List.nodup_append]
      refine ⟨hok.2, List.nodup_singleton _, ?_⟩
      intro a ha hb
      simp only [List.map_cons, List.map_nil, List.mem_singleton] at hb
      simp only [List.mem_map] at ha
      obtain ⟨c, hcm, hcid⟩ := ha
      have h2 := hok.1 c hcm
      rw [hncid] at hb
      omega

/-- A guarded single-item booking preserves the invariant (whether or not a
new client row is created, and whether or not the insertion loop fails). -/
theorem agendar_preserves (db : DB) (item : CarritoItem) (nom tel hoy : String)
    (dur : Nat)
    (hval : validar_choque db item.fecha item.inicio dur item.profesional
      = (false, item.fin))
    (hno : noOverlap db) (hok : CitasOk db) :
    noOverlap (guardar_paquete_citas db [item] nom tel hoy).1 ∧
      CitasOk (guardar_paquete_citas db [item] nom tel hoy).1 := by
  obtain ⟨ini, pid, hini, hpid, hfin, hcc, hcb⟩ :=
    validar_choque_false_inv db item.fecha item.inicio item.profesional dur
      item.fin hval
  cases hbc : buscar_cliente db tel with
  | some t =>
    cases hic : insertCitas t.id db [item] with
    | error e =>
      have h1 : (guardar_paquete_citas db [item] nom tel hoy).1 = db := by
        simp only [guardar_paquete_citas, hbc, hic]
      rw [h1]
      exact ⟨hno, hok⟩
    | ok db2 =>
      have h1 : (guardar_paquete_citas db [item] nom tel hoy).1 = db2 := by
        simp only [guardar_paquete_citas, hbc, hic]
      rw [h1]
      cases hsid : (db.servicios.find? (fun s => s.nombre == item.servicio)).map
          (fun s => s.id) with
      | none =>
        simp only [insertCitas, hpid, hsid, Bind.bind, Except.bind] at hic
        cases hic
      | some sid =>
        simp only [insertCitas, hpid, hsid, Bind.bind, Except.bind] at hic
        cases hic
        exact insert_one_ok db _ { id := db.next_cita_id, cliente_id := t.id, profesional_id := pid, servicio_id := sid, fecha := f_to_iso item.fecha, hora_inicio := item.inicio, hora_fin := item.fin, estado := "Pendiente", precio_final := item.precio, nomina_pagada := false } pid item ini dur rfl rfl rfl rfl rfl rfl rfl rfl rfl hini hfin hcc hcb hno hok
  | none =>
    have hlook2 : lookupEmpleadoId { db with
        terceros := db.terceros ++
          [{ id := db.next_tercero_id, doc_id := "", nombre_completo := nom,
             telefono := tel, es_cliente := true, es_proveedor := false,
             es_empleado := false, comision := 0, fecha_registro := hoy }],
        next_tercero_id := db.next_tercero_id + 1 } item.profesional
        = some pid := by
      rw [lookupEmpleadoId_stable db _ _ item.profesional rfl rfl]
      exact hpid
    cases hic : insertCitas db.next_tercero_id { db with
        terceros := db.terceros ++
          [{ id := db.next_tercero_id, doc_id := "", nombre_completo := nom,
             telefono := tel, es_cliente := true, es_proveedor := false,
             es_empleado := false, comision := 0, fecha_registro := hoy }],
        next_tercero_id := db.next_tercero_id + 1 } [item] with
    | error e =>
      have h1 : (guardar_paquete_citas db [item] nom tel hoy).1 = { db with
          terceros := db.terceros ++
            [{ id := db.next_tercero_id, doc_id := "", nombre_completo := nom,
               telefono := tel, es_cliente := true, es_proveedor := false,
               es_empleado := false, comision := 0, fecha_registro := hoy }],
          next_tercero_id := db.next_tercero_id + 1 } := by
        simp only [guardar_paquete_citas, hbc, hic]
      rw [h1]
      exact ⟨hno, hok⟩
    | ok db2 =>
      have h1 : (guardar_paquete_citas db [item] nom tel hoy).1 = db2 := by
        simp only [guardar_paquete_citas, hbc, hic]
      rw [h1]
      cases hsid : (db.servicios.find? (fun s => s.nombre == item.servicio)).map
          (fun s => s.id) with
      | none =>
        simp only [insertCitas, hlook2, hsid, Bind.bind, Except.bind] at hic
        cases hic
      | some sid =>
        simp only [insertCitas, hlook2, hsid, Bind.bind, Except.bind] at hic
        cases hic
        exact insert_one_ok db _ { id := db.next_cita_id, cliente_id := db.next_tercero_id, profesional_id := pid, servicio_id := sid, fecha := f_to_iso item.fecha, hora_inicio := item.inicio, hora_fin := item.fin, estado := "Pendiente", precio_final := item.precio, nomina_pagada := false } pid item ini dur rfl rfl rfl rfl rfl rfl rfl rfl rfl hini hfin hcc hcb hno hok

/-- Rescheduling preserves the invariant: the new window was validated
against every standing interval, and by id-uniqueness exactly the one
appointment row moves there. -/
theorem reagendar_preserves (db : DB) (idc : Nat) (f h pro : String)
    (hno : noOverlap db) (hok : CitasOk db) :
    noOverlap (reagendar_cita db idc f h pro).1 ∧
      CitasOk (reagendar_cita db idc f h pro).1 := by
  cases hfind : (db.citas.find? (fun c => c.id == idc)).bind
      (fun c => (db.servicios.find? (fun sv => sv.id == c.servicio_id)).map
        (fun sv => sv.duracion_min)) with
  | none =>
    have h1 : (reagendar_cita db idc f h pro).1 = db := by
      simp only [reagendar_cita, hfind]
    rw [h1]
    exact ⟨hno, hok⟩
  | some dur =>
    cases hv : validar_choque db f h dur pro with
    | mk b s =>
      cases b with
      | true =>
        have h1 : (reagendar_cita db idc f h pro).1 = db := by
          simp only [reagendar_cita, hfind, hv]
        rw [h1]
        exact ⟨hno, hok⟩
      | false =>
        cases hpl : lookupEmpleadoId db pro with
        | none =>
          have h1 : (reagendar_cita db idc f h pro).1 = db := by
            simp only [reagendar_cita, hfind, hv, hpl]
          rw [h1]
          exact ⟨hno, hok⟩
        | some pid =>
          have h1 : (reagendar_cita db idc f h pro).1 = { db with citas := db.citas.map (fun c => if c.id == idc then { c with fecha := f_to_iso f, hora_inicio := h, hora_fin := s, profesional_id := pid, estado := "Reagendado" } else c) } := by
            simp only [reagendar_cita, hfind, hv, hpl]
          rw [h1]
          set upd : Cita → Cita := fun c => if c.id == idc then { c with fecha := f_to_iso f, hora_inicio := h, hora_fin := s, profesional_id := pid, estado := "Reagendado" } else c with hupd
          obtain ⟨ini, pid2, hini, hpid2, hfeq, hcc, hcb⟩ :=
            validar_choque_false_inv db f h pro dur s hv
          rw [hpl] at hpid2
          injection hpid2 with hpe
          subst hpe
          have hfinp : parseHM s = some ((ini + dur) % 1440) := by
            rw [hfeq]
            exact parseHM_fmtHM _ (Nat.mod_lt _ (by omega))
          obtain ⟨c0, hc0find, -⟩ := Option.bind_eq_some.mp hfind
          have hc0mem : c0 ∈ db.citas := List.mem_of_find?_eq_some hc0find
          have hc0id : c0.id = idc := by
            have hfp := List.find?_some hc0find
            simpa using hfp
          obtain ⟨l1, l2, hsplit⟩ := List.append_of_mem hc0mem
          have hnd0 := hok.2
          rw [hsplit, List.map_append, List.map_cons, List.nodup_append] at hnd0
          obtain ⟨hnd1, hnd2, hdisj⟩ := hnd0
          rw [List.nodup_cons] at hnd2
          obtain ⟨hnotl2, hnd2b⟩ := hnd2
          have hnotl1 : c0.id ∉ l1.map (fun c : Cita => c.id) := fun hmem =>
            hdisj hmem (List.mem_cons_self _ _)
          have hupd1 : ∀ a ∈ l1, upd a = a := by
            intro a ha
            have hane : a.id ≠ idc := by
              intro he
              exact hnotl1 (List.mem_map.mpr ⟨a, ha, by rw [he]; exact hc0id.symm⟩)
            simp only [hupd]
            rw [if_neg (by simpa using hane)]
          have hupd2 : ∀ a ∈ l2, upd a = a := by
            intro a ha
            have hane : a.id ≠ idc := by
              intro he
              apply hnotl2
              rw [hc0id]
              exact List.mem_map.mpr ⟨a, ha, he⟩
            simp only [hupd]
            rw [if_neg (by simpa using hane)]
          have hupdc0 : upd c0 = { c0 with fecha := f_to_iso f, hora_inicio := h, hora_fin := s, profesional_id := pid, estado := "Reagendado" } := by
            simp only [hupd]
            rw [if_pos (by simp [hc0id])]
          have hmap : db.citas.map upd = l1 ++ upd c0 :: l2 := by
            rw [hsplit, List.map_append, List.map_cons,
              List.map_congr_left hupd1, List.map_congr_left hupd2]
            simp
          have hpredR : ((upd c0).estado != "Cancelado") = true := by
            rw [hupdc0]
            show (("Reagendado" : String) != "Cancelado") = true
            decide
          have hsubA2 : (((l2.filter (fun c => c.estado != "Cancelado")).map ivOfCita) : List Iv).Sublist
              (((c0 :: l2).filter (fun c => c.estado != "Cancelado")).map ivOfCita) := by
            rw [List.filter_cons]
            by_cases hpc : (c0.estado != "Cancelado") = true
            · rw [if_pos hpc, List.map_cons]
              exact List.Sublist.cons _ (List.Sublist.refl _)
            · rw [if_neg hpc]
          have hsub : ((l1.filter (fun c => c.estado != "Cancelado")).map ivOfCita
              ++ ((l2.filter (fun c => c.estado != "Cancelado")).map ivOfCita
                ++ bloqueoIvs db)).Sublist (ivs db) := by
            have hceq : citaIvs db
                = (l1.filter (fun c => c.estado != "Cancelado")).map ivOfCita
                  ++ ((c0 :: l2).filter (fun c => c.estado != "Cancelado")).map ivOfCita := by
              simp only [citaIvs]
              rw [hsplit, List.filter_append, List.map_append]
            have : ((l1.filter (fun c => c.estado != "Cancelado")).map ivOfCita
                ++ ((l2.filter (fun c => c.estado != "Cancelado")).map ivOfCita
                  ++ bloqueoIvs db)).Sublist
                ((l1.filter (fun c => c.estado != "Cancelado")).map ivOfCita
                  ++ (((c0 :: l2).filter (fun c => c.estado != "Cancelado")).map ivOfCita
                    ++ bloqueoIvs db)) :=
              List.Sublist.append_left
                (List.Sublist.append hsubA2 (List.Sublist.refl _)) _
            rw [ivs, hceq, List.append_assoc]
            exact this
          have hivs3 : ivs { db with citas := db.citas.map upd }
              = ((l1.filter (fun c => c.estado != "Cancelado")).map ivOfCita
                  ++ ivOfCita (upd c0)
                    :: (l2.filter (fun c => c.estado != "Cancelado")).map ivOfCita)
                ++ bloqueoIvs db := by
            simp only [ivs, citaIvs, bloqueoIvs]
            rw [hmap, List.filter_append, List.filter_cons, if_pos hpredR,
              List.map_append, List.map_cons]
          have hn : ivOfCita (upd c0) = ({ pid := pid, global := false, fecha := f_to_iso f, hora_inicio := h, hora_fin := s } : Iv) := by
            rw [hupdc0]
            rfl
          constructor
          · unfold noOverlap at hno ⊢
            rw [hivs3]
            have hperm : (((l1.filter (fun c => c.estado != "Cancelado")).map ivOfCita
                ++ ivOfCita (upd c0)
                  :: (l2.filter (fun c => c.estado != "Cancelado")).map ivOfCita)
                ++ bloqueoIvs db).Perm
                (ivOfCita (upd c0)
                  :: ((l1.filter (fun c => c.estado != "Cancelado")).map ivOfCita
                    ++ ((l2.filter (fun c => c.estado != "Cancelado")).map ivOfCita
                      ++ bloqueoIvs db))) := by
              rw [List.append_assoc]
              exact List.perm_middle
            rw [List.Perm.pairwise_iff (fun hxy => ivSep_symm _ _ hxy) hperm,
              List.pairwise_cons]
            constructor
            · intro e he
              have hemem : e ∈ ivs db := List.Sublist.subset hsub he
              rw [hn]
              exact newIv_sep db ini dur pid (f_to_iso f) h s hini hfinp hcc hcb
                e hemem
            · exact List.Pairwise.sublist hsub hno
          · refine ⟨?_, ?_⟩
            · intro c hc
              obtain ⟨c1, hc1, hcEq⟩ := List.mem_map.mp hc
              have hid : (upd c1).id = c1.id := by
                simp only [hupd]
                by_cases hh : c1.id = idc <;> simp [hh]
              show c.id < db.next_cita_id
              rw [← hcEq, hid]
              exact hok.1 c1 hc1
            · show ((db.citas.map upd).map (fun c : Cita => c.id)).Nodup
              rw [List.map_map]
              have hcomp : ((fun c : Cita => c.id) ∘ upd) = fun c : Cita => c.id := by
                funext c
                simp only [hupd, Function.comp]
                by_cases hh : c.id = idc <;> simp [hh]
              rw [hcomp]
              exact hok.2

theorem GSchedStep_inv (db db2 : DB) (hstep : GSchedStep db db2)
    (hinv : noOverlap db ∧ CitasOk db) : noOverlap db2 ∧ CitasOk db2 := by
  cases hstep with
  | agendar item nom tel hoy dur hval =>
    exact agendar_preserves db item nom tel hoy dur hval hinv.1 hinv.2
  | bloqueo pro f1 f2 h1 h2 mot pid dias hpid hdias hnd hsep =>
    exact bloqueo_preserves db pro f1 f2 h1 h2 mot pid dias hpid hdias hnd hsep
      hinv.1 hinv.2
  | reagendar idc f h pro =>
    exact reagendar_preserves db idc f h pro hinv.1 hinv.2
  | cancelar idc =>
    exact cancelar_preserves db idc hinv.1 hinv.2

/-- C1 amended: the no-overlap calendar invariant holds for the guarded
operations. Starting from a store with an empty calendar, any sequence of
bookings made in the single-item endpoint shape immediately after
`validar_choque` approved exactly that window, block creations whose days
are distinct and collision-free against the standing calendar (a check the
source itself never performs), reschedulings and cancellations leaves every
pair of occupied intervals on the same professional and date separated under
the half-open overlap test. The unguarded source operations do not have this
property. -/
theorem scheduling_no_overlap (db0 db : DB) (h0c : db0.citas = [])
    (h0b : db0.bloqueos = []) (hreach : GSchedReach db0 db) : noOverlap db := by
  have hbase : noOverlap db0 ∧ CitasOk db0 := by
    constructor
    · unfold noOverlap ivs citaIvs bloqueoIvs
      rw [h0c, h0b]
      simp
    · constructor
      · intro c hc
        rw [h0c] at hc
        simp at hc
      · rw [h0c]
        simp
  have hinv : noOverlap db ∧ CitasOk db := by
    unfold GSchedReach at hreach
    induction hreach with
    | refl => exact hbase
    | tail hsub hstep ih => exact GSchedStep_inv _ _ hstep ih
  exact hinv.1

/-- Witness for the amended C1: one guarded booking of the 09:00-10:00 slot
from the seeded empty calendar leaves an overlap-free calendar. -/
theorem scheduling_no_overlap_witness :
    noOverlap (guardar_paquete_citas dbBase [itemC1] "Cli" "301" "2025-12-01").1 :=
  scheduling_no_overlap dbBase _ rfl rfl
    (Relation.ReflTransGen.tail Relation.ReflTransGen.refl
      (GSchedStep.agendar dbBase itemC1 "Cli" "301" "2025-12-01" 60 (by decide)))
